import Mathlib

/-!
# Verification of the zillow-scraper core against its design spec

Shallow embedding of the three source files
  * `src/backend/src/scraper/orchestrator.ts`   (job orchestrator, batch scheduler)
  * `src/backend/src/scraper/listingWorker.ts`  (`src/unnamed/part_000`: per-listing worker,
    `extractFromNextData` field derivation)
  * `src/backend/src/scraper/pageController.ts` (listing-URL discovery, pagination)

JavaScript values are modelled by the inductive `JsVal`; JS numbers are modelled as
unreduced integer fractions (`JNum`, NaN as `Option.none` where it can arise), which is
exact for every integer/percent computation the code performs.  Asynchronous concurrency
is modelled by explicit oracles: worker outcomes, per-chunk completion orders, and the
value of the cancellation signal at each of the points where the code samples it.
Navigation, DOM querying and the remote session provider are external collaborators; a
model input ("snapshot"/"oracle") records the result each such call would deliver, while
all control flow and data derivation of the source is modelled faithfully.
-/

namespace ZS

/-! ## JS numbers: unreduced fractions, NaN as `none` -/

/-- A JS number modelled as an unreduced fraction `n / d`.  Payload values are built
with `d = 1` (JSON integers); arithmetic keeps denominators positive and never reduces,
so every operation is plain integer arithmetic. -/
structure JNum where
  n : Int
  d : Int

/-- The literal 1. -/
def jnOne : JNum := ⟨1, 1⟩

/-- Build a JS number from an integer. -/
def jnInt (i : Int) : JNum := ⟨i, 1⟩

/-- `x / 100` (percent scaling, source lines 99-100 of listingWorker). -/
def jnDiv100 : Option JNum → Option JNum
  | some q => some ⟨q.n, q.d * 100⟩
  | none => none

/-- Subtraction, NaN-propagating. -/
def jnSub : Option JNum → Option JNum → Option JNum
  | some a, some b => some ⟨a.n * b.d - b.n * a.d, a.d * b.d⟩
  | _, _ => none

/-- Addition, NaN-propagating. -/
def jnAdd : Option JNum → Option JNum → Option JNum
  | some a, some b => some ⟨a.n * b.d + b.n * a.d, a.d * b.d⟩
  | _, _ => none

/-- Multiplication, NaN-propagating. -/
def jnMul : Option JNum → Option JNum → Option JNum
  | some a, some b => some ⟨a.n * b.n, a.d * b.d⟩
  | _, _ => none

/-- JS `Math.round`: round half toward positive infinity,
`round(x) = floor(x + 1/2) = fdiv (2n + d) (2d)`.  `none` is NaN. -/
def jnRound : Option JNum → Option Int
  | some q => some (Int.fdiv (2 * q.n + q.d) (2 * q.d))
  | none => none

/-- Chunk a list into pieces of `n`, with explicit fuel (structural, kernel-evaluable). -/
def chunkAux {α : Type} (n : Nat) : Nat → List α → List (List α)
  | 0, _ => []
  | _, [] => []
  | fuel+1, l => l.take n :: chunkAux n fuel (l.drop n)

/-- Thousands-group the decimal digits of a natural number, `en-US` style. -/
def groupNat (m : Nat) : String :=
  let r := (Nat.repr m).data.reverse
  String.mk ((List.intercalate [','] (chunkAux 3 r.length r)).reverse)

/-- `Number.prototype.toLocaleString()` on an integer: sign plus grouped digits. -/
def groupInt (i : Int) : String :=
  (if i < 0 then "-" else "") ++ groupNat i.natAbs

/-- `toLocaleString` of a rounded value; `none` (NaN) prints as `"NaN"`. -/
def intLocale : Option Int → String
  | some i => groupInt i
  | none => "NaN"

/-- `toLocaleString` of a general number.  Exact (grouped) for integral values — the only
case the spec exercises; non-integral values are rendered with up to three rounded
fraction digits, approximating the `en-US` default. -/
def jnLocale : Option JNum → String
  | none => "NaN"
  | some q =>
    if q.d ≠ 0 ∧ q.n % q.d = 0 then groupInt (q.n / q.d)
    else
      let milli : Int := Int.fdiv (2 * q.n * 1000 + q.d) (2 * q.d)
      let ip : Int := milli / 1000
      let fp : Nat := milli.natAbs % 1000
      if fp = 0 then groupInt ip
      else groupInt ip ++ "." ++ Nat.repr fp

/-! ## JS values -/

/-- A JavaScript/JSON value.  `undefined` is `undefined` (also the result of reading an
absent object property). -/
inductive JsVal where
  | undefined
  | null
  | bool (b : Bool)
  | num (q : JNum)
  | str (s : String)
  | arr (xs : List JsVal)
  | obj (fields : List (String × JsVal))

/-- JS truthiness: `undefined`, `null`, `false`, `0`, `""` are falsy; objects and
arrays are always truthy. -/
def jsTruthy : JsVal → Bool
  | .undefined => false
  | .null => false
  | .bool b => b
  | .num q => q.n != 0
  | .str s => s != ""
  | .arr _ => true
  | .obj _ => true

/-- Strict equality against a string literal, as in `val !== ""` / `val !== "No Data"`:
only a string value can strictly equal a string literal (used nowhere else). -/
instance : BEq JsVal where
  beq a b :=
    match a, b with
    | .str s, .str t => s == t
    | _, _ => false

/-- JS `x != null` (loose): false exactly for `null` and `undefined`. -/
def jsNeNull : JsVal → Bool
  | .null => false
  | .undefined => false
  | _ => true

/-- Total property read: objects look the key up (first binding), every other
non-nullish value yields `undefined`; reading off `null`/`undefined` is modelled
separately by `jsGetF` because it throws. -/
def jsGetD : JsVal → String → JsVal
  | .obj fs, k =>
    match fs.find? (fun p => p.1 == k) with
    | some p => p.2
    | none => .undefined
  | _, _ => .undefined

/-- Property read as the source performs it: reading a property of `null`/`undefined`
throws a `TypeError` (modelled as `Except.error`), every other base yields `jsGetD`. -/
def jsGetF (v : JsVal) (k : String) : Except Unit JsVal :=
  match v with
  | .undefined => .error ()
  | .null => .error ()
  | _ => .ok (jsGetD v k)

/-- JS `ToNumber` as used by the source (`Number(x)` and arithmetic coercion).  Exact on
numbers, `null` and booleans; string and object coercion is abstracted to NaN (no claim
exercises a string/array operand in a numeric position). -/
def jsToNum : JsVal → Option JNum
  | .num q => some q
  | .null => some ⟨0, 1⟩
  | .bool b => some ⟨if b then 1 else 0, 1⟩
  | _ => none

/-- JS `String(x)`.  Exact on strings, `null`, `undefined`, booleans and integral
numbers; a non-integral number prints as `n/d` (an abstraction of JS shortest-float
printing — never the empty string, which is all any claim relies on);
arrays print as their comma-join, objects as `"[object Object]"`. -/
def jsToString : JsVal → String
  | .undefined => "undefined"
  | .null => "null"
  | .bool b => if b then "true" else "false"
  | .num q =>
    if q.d ≠ 0 ∧ q.n % q.d = 0 then toString (q.n / q.d)
    else toString q.n ++ "/" ++ toString q.d
  | .str s => s
  | .arr xs => String.intercalate "," (xs.map (fun e =>
      match e with
      | .null => ""
      | .undefined => ""
      | .num q => if q.d ≠ 0 ∧ q.n % q.d = 0 then toString (q.n / q.d) else toString q.n ++ "/" ++ toString q.d
      | .str s => s
      | .bool b => if b then "true" else "false"
      | _ => "[object]"))
  | .obj _ => "[object Object]"

/-- JS `Array.prototype.join(sep)`: elements convert with `String(·)` except
`null`/`undefined`, which join as the empty string. -/
def jsJoin (sep : String) (xs : List JsVal) : String :=
  String.intercalate sep (xs.map (fun e =>
    match e with
    | .null => ""
    | .undefined => ""
    | e => jsToString e))

/-- Collapse runs of whitespace-or-`/` to a single underscore
(JS `replace(/[\s\/]+/g, "_")`, lowercased input). -/
def slugCollapse : List Char → List Char
  | [] => []
  | c :: rest =>
    if c.isWhitespace || c == '/' then
      match rest with
      | [] => ['_']
      | c' :: _ =>
        if c'.isWhitespace || c' == '/' then slugCollapse rest
        else '_' :: slugCollapse rest
    else c :: slugCollapse rest

/-- Free-form fact-label slug (listingWorker line 174):
lowercase, `[\s\/]+` runs to `_`, then strip everything outside `[a-z0-9_]`. -/
def slug (s : String) : String :=
  String.mk ((slugCollapse (s.data.map Char.toLower)).filter
    (fun c => (('a' ≤ c ∧ c ≤ 'z') ∨ ('0' ≤ c ∧ c ≤ '9') ∨ c = '_' : Bool)))

/-! ## Dynamic records with a write trace

The extraction result is a JS object built by a sequence of property assignments.  We
record every assignment (which pass performed it, the key, the value previously visible
at that key, and the new value) so that first-writer-wins claims are directly statable. -/

/-- Which block of `extractFromNextData` (or of the DOM fallback) performed a write. -/
inductive Pass where
  | basicFacts   -- listingWorker lines 107-121
  | dictFacts    -- the `factMappings` dictionary pass, lines 158-167
  | glanceFacts  -- the `atAGlanceFacts` pass, lines 170-180
  | other        -- address / monetary / range / history / DOM-fallback writes

/-- One recorded property assignment. -/
structure WriteEv where
  pass : Pass
  key : String
  old : JsVal   -- value visible at `key` just before the write (`undefined` if unset)
  new : JsVal

/-- A dynamic record: insertion-ordered fields plus the full write log. -/
structure JRec where
  fields : List (String × JsVal)
  writes : List WriteEv

/-- The empty record. -/
def emptyRec : JRec := ⟨[], []⟩

/-- Current value at a key (`undefined` when the key was never assigned). -/
def JRec.get (r : JRec) (k : String) : JsVal :=
  match r.fields.find? (fun p => p.1 == k) with
  | some p => p.2
  | none => .undefined

/-- JS property assignment on the backing field list: overwrite in place, else append. -/
def setPairs : List (String × JsVal) → String → JsVal → List (String × JsVal)
  | [], k, v => [(k, v)]
  | (k', v') :: rest, k, v =>
    if k' == k then (k', v) :: rest else (k', v') :: setPairs rest k v

/-- `result[k] = v`, logging the write. -/
def JRec.set (r : JRec) (p : Pass) (k : String) (v : JsVal) : JRec :=
  { fields := setPairs r.fields k v,
    writes := r.writes ++ [{ pass := p, key := k, old := r.get k, new := v }] }

/-- `if (!result[k]) result[k] = v` — the guarded assignment the dictionary and
at-a-glance passes use (listingWorker lines 163-165 and 175-177). -/
def JRec.setIfUnset (r : JRec) (p : Pass) (k : String) (v : JsVal) : JRec :=
  if jsTruthy (r.get k) then r else r.set p k v

/-! ## `extractFromNextData` (listingWorker lines 15-212)

The three `gdpClientCache` navigation strategies (lines 17-70) locate a `property`
value inside the parsed `__NEXT_DATA__` payload, or fail; their net result is the
`Option JsVal` argument below (`none` = no property found, which makes the function
return `null` exactly as line 70 does).  Field derivation (lines 72-211) is modelled
clause by clause.  The whole body is wrapped in `try/catch { return null }`
(lines 16, 209-211): any modelled throw collapses to `none`. -/

/-- Lines 74-81: address = comma-join of the truthy parts, `|| null`.
`property` is truthy here, so its own property reads never throw. -/
def addressPass (p : JsVal) (r : JRec) : JRec :=
  let addr := jsGetD p "address"
  if jsTruthy addr then
    let parts := [jsGetD addr "streetAddress", jsGetD addr "city",
                  jsGetD addr "state", jsGetD addr "zipcode"].filter jsTruthy
    let s := jsJoin ", " parts
    r.set .other "address" (if s == "" then .null else .str s)
  else
    r.set .other "address" .null

/-- `x != null ? "$" + Number(x).toLocaleString() : null` (lines 84-92). -/
def fmtMoney (v : JsVal) : JsVal :=
  if jsNeNull v then .str ("$" ++ jnLocale (jsToNum v)) else .null

/-- Lines 83-92: price, zestimate, rent_zestimate. -/
def moneyPass (p : JsVal) (r : JRec) : JRec :=
  let r := r.set .other "price" (fmtMoney (jsGetD p "price"))
  let r := r.set .other "zestimate" (fmtMoney (jsGetD p "zestimate"))
  r.set .other "rent_zestimate" (fmtMoney (jsGetD p "rentZestimate"))

/-- Lines 94-104: estimated sales range.  Note the JS truthiness test on the center
value (`zestimateVal && ...`): a zestimate of `0` takes the `null` branch. -/
def rangePass (p : JsVal) (r : JRec) : JRec :=
  let zLow := jsGetD p "zestimateLowPercent"
  let zHigh := jsGetD p "zestimateHighPercent"
  let zVal := jsGetD p "zestimate"
  if jsTruthy zVal && jsNeNull zLow && jsNeNull zHigh then
    let low := jnRound (jnMul (jsToNum zVal) (jnSub (some jnOne) (jnDiv100 (jsToNum zLow))))
    let high := jnRound (jnMul (jsToNum zVal) (jnAdd (some jnOne) (jnDiv100 (jsToNum zHigh))))
    r.set .other "estimated_sales_range"
      (.str ("$" ++ intLocale low ++ " - $" ++ intLocale high))
  else
    r.set .other "estimated_sales_range" .null

/-- Lines 107-121: basic facts.  Plain assignments guarded by `!= null` or truthiness;
note `fact_lot_size` is assigned twice when both sources are present (line 110 then
lines 111-113), faithful to the source. -/
def basicFactsPass (p : JsVal) (r : JRec) : JRec :=
  let bedrooms := jsGetD p "bedrooms"
  let r := if jsNeNull bedrooms then r.set .basicFacts "fact_bedrooms" (.str (jsToString bedrooms)) else r
  let bathrooms := jsGetD p "bathrooms"
  let r := if jsNeNull bathrooms then r.set .basicFacts "fact_bathrooms" (.str (jsToString bathrooms)) else r
  let livingArea := jsGetD p "livingArea"
  let r := if jsNeNull livingArea then r.set .basicFacts "fact_living_area" (.str (jsToString livingArea ++ " sqft")) else r
  let lotSize := jsGetD p "lotSize"
  let r := if jsNeNull lotSize then r.set .basicFacts "fact_lot_size" (.str (jsToString lotSize ++ " sqft")) else r
  let lotAreaValue := jsGetD p "lotAreaValue"
  let lotAreaUnits := jsGetD p "lotAreaUnits"
  let r := if jsNeNull lotAreaValue && jsNeNull lotAreaUnits then
      r.set .basicFacts "fact_lot_size" (.str (jsToString lotAreaValue ++ " " ++ jsToString lotAreaUnits))
    else r
  let yearBuilt := jsGetD p "yearBuilt"
  let r := if jsNeNull yearBuilt then r.set .basicFacts "fact_year_built" (.str (jsToString yearBuilt)) else r
  let homeType := jsGetD p "homeType"
  let r := if jsTruthy homeType then r.set .basicFacts "fact_type" (.str (jsToString homeType)) else r
  let homeStatus := jsGetD p "homeStatus"
  let r := if jsTruthy homeStatus then r.set .basicFacts "fact_status" (.str (jsToString homeStatus)) else r
  let parkingCapacity := jsGetD p "parkingCapacity"
  let r := if jsNeNull parkingCapacity then r.set .basicFacts "fact_parking" (.str (jsToString parkingCapacity)) else r
  let heatingSystem := jsGetD p "heatingSystem"
  let r := if jsTruthy heatingSystem then r.set .basicFacts "fact_heating" (.str (jsToString heatingSystem)) else r
  let coolingSystem := jsGetD p "coolingSystem"
  if jsTruthy coolingSystem then r.set .basicFacts "fact_cooling" (.str (jsToString coolingSystem)) else r

/-- The fixed source-key dictionary `factMappings` (lines 126-156), in source order.
`atAGlanceFacts` maps to `""` and is skipped by the loop, exactly as in the source. -/
def factMappings : List (String × String) :=
  [("atAGlanceFacts", ""),
   ("bedrooms", "bedrooms"),
   ("bathrooms", "bathrooms"),
   ("bathroomsFull", "bathrooms_full"),
   ("bathroomsHalf", "bathrooms_half"),
   ("livingArea", "living_area"),
   ("stories", "stories"),
   ("homeType", "type"),
   ("yearBuilt", "year_built"),
   ("heating", "heating"),
   ("cooling", "cooling"),
   ("parking", "parking"),
   ("parkingCapacity", "parking_capacity"),
   ("garageSpaces", "garage_spaces"),
   ("hasGarage", "has_garage"),
   ("laundryFeatures", "laundry"),
   ("appliances", "appliances"),
   ("flooring", "flooring"),
   ("basement", "basement"),
   ("roofType", "roof"),
   ("exteriorFeatures", "exterior_features"),
   ("constructionMaterials", "construction"),
   ("foundationDetails", "foundation"),
   ("sewer", "sewer"),
   ("waterSource", "water_source"),
   ("architecturalStyle", "architectural_style"),
   ("communityFeatures", "community_features"),
   ("associationFee", "hoa_fee"),
   ("associationFeeFrequency", "hoa_frequency")]

/-- One iteration of the dictionary loop (lines 158-167): skip `atAGlanceFacts`,
skip `null`/`undefined`/`""`/`"None"` source values, stringify (arrays join with
`", "`), and assign only when the target `fact_` field is not already truthy. -/
def dictAssign (resoFacts : JsVal) (r : JRec) (m : String × String) : JRec :=
  if m.1 == "atAGlanceFacts" then r
  else
    let val := jsGetD resoFacts m.1
    if jsNeNull val && !(val == .str "") && !(val == .str "None") then
      let strVal := match val with
        | .arr xs => jsJoin ", " xs
        | v => jsToString v
      r.setIfUnset .dictFacts ("fact_" ++ m.2) (.str strVal)
    else r

/-- Lines 158-167: fold the dictionary over `resoFacts`. -/
def dictPass (resoFacts : JsVal) (r : JRec) : JRec :=
  factMappings.foldl (dictAssign resoFacts) r

/-- One `atAGlanceFacts` entry (lines 172-179).  Reading `factLabel` off a `null`
entry throws; calling `.toLowerCase()` on a truthy non-string label throws; both
collapse the whole extraction to `null`.  Note the sentinel here is `"No Data"`
(a value of `"None"` is NOT skipped), and the raw `factValue` is stored. -/
def glanceStep (r : JRec) (fact : JsVal) : Except Unit JRec := do
  let label ← jsGetF fact "factLabel"
  if jsTruthy label then do
    let value ← jsGetF fact "factValue"
    if jsTruthy value && !(value == .str "No Data") then
      match label with
      | .str s => pure (r.setIfUnset .glanceFacts ("fact_" ++ slug s) value)
      | _ => .error ()
    else pure r
  else pure r

/-- Fold `glanceStep` over the entries. -/
def glanceFold : List JsVal → JRec → Except Unit JRec
  | [], r => .ok r
  | f :: rest, r => do glanceFold rest (← glanceStep r f)

/-- Lines 169-180: run the at-a-glance pass when `resoFacts.atAGlanceFacts` is an array. -/
def glancePass (resoFacts : JsVal) (r : JRec) : Except Unit JRec :=
  match jsGetD resoFacts "atAGlanceFacts" with
  | .arr xs => glanceFold xs r
  | _ => .ok r

/-- Lines 124-181: the whole `if (resoFacts) { ... }` block. -/
def resoPass (p : JsVal) (r : JRec) : Except Unit JRec :=
  let resoFacts := jsGetD p "resoFacts"
  if jsTruthy resoFacts then glancePass resoFacts (dictPass resoFacts r)
  else .ok r

/-- `x || null`. -/
def orNull (v : JsVal) : JsVal := if jsTruthy v then v else .null

/-- One price-history tuple (lines 186-191); reading off a `null` entry throws. -/
def phEntry (entry : JsVal) : Except Unit JsVal := do
  let date ← jsGetF entry "date"
  let event ← jsGetF entry "event"
  let price ← jsGetF entry "price"
  let src ← jsGetF entry "source"
  pure (.arr [orNull date, orNull event, fmtMoney price, orNull src])

/-- One tax-history tuple (lines 199-203). -/
def thEntry (entry : JsVal) : Except Unit JsVal := do
  let time ← jsGetF entry "time"
  let taxPaid ← jsGetF entry "taxPaid"
  let value ← jsGetF entry "value"
  pure (.arr [orNull time, fmtMoney taxPaid, fmtMoney value])

/-- `Array.prototype.map` under the throwing entry transform. -/
def exceptMap (f : JsVal → Except Unit JsVal) : List JsVal → Except Unit (List JsVal)
  | [] => .ok []
  | x :: xs => do pure ((← f x) :: (← exceptMap f xs))

/-- Lines 183-194: price history — a nonempty array maps to tuples, else `null`. -/
def priceHistoryPass (p : JsVal) (r : JRec) : Except Unit JRec :=
  match jsGetD p "priceHistory" with
  | .arr xs =>
    if 0 < xs.length then do
      pure (r.set .other "price_history" (.arr (← exceptMap phEntry xs)))
    else .ok (r.set .other "price_history" .null)
  | _ => .ok (r.set .other "price_history" .null)

/-- Lines 196-206: tax history. -/
def taxHistoryPass (p : JsVal) (r : JRec) : Except Unit JRec :=
  match jsGetD p "taxHistory" with
  | .arr xs =>
    if 0 < xs.length then do
      pure (r.set .other "public_tax_history" (.arr (← exceptMap thEntry xs)))
    else .ok (r.set .other "public_tax_history" .null)
  | _ => .ok (r.set .other "public_tax_history" .null)

/-- Lines 72-208: build the result record from a (truthy) `property` value. -/
def buildRecord (p : JsVal) : Except Unit JRec := do
  let r := addressPass p emptyRec
  let r := moneyPass p r
  let r := rangePass p r
  let r := basicFactsPass p r
  let r ← resoPass p r
  let r ← priceHistoryPass p r
  taxHistoryPass p r

/-- `extractFromNextData` (lines 15-212).  The argument is the net result of the three
payload-navigation strategies (lines 17-70), see the section header; `if (!property)
return null` is the truthiness test, and the surrounding `try/catch` maps any modelled
throw to `none`. -/
def extractFromNextData (propertyLookup : Option JsVal) : Option JRec :=
  match propertyLookup with
  | none => none
  | some p =>
    if jsTruthy p then
      match buildRecord p with
      | .ok r => some r
      | .error _ => none
    else none

/-! ## `scrapeListingPage` (listingWorker lines 214-419)

A `ListingSnapshot` records what the external collaborators (session provider,
navigation, DOM) would deliver during one call: whether each awaited step succeeds,
whether the `__NEXT_DATA__` script parsed to a truthy value, the property located
inside it, and the values the DOM-fallback `page.evaluate` block (lines 281-412)
computes.  The worker's control flow — tier selection, the address gate on Tier 1,
and the unconditional return on Tier 2 — is modelled exactly. -/

/-- Net results of the DOM-fallback `page.evaluate` (lines 281-412).  The `address`
assignment (lines 286-289, `addressEl?.textContent?.trim() ?? null`) is modelled
exactly: `none` means neither the `h1` nor the address test-id element exists, so
`result.address = null`.  The remaining selectors/regexes over the rendered DOM are
abstracted to the values they produce (their derivation never feeds a claim). -/
structure DomSnapshot where
  addressText : Option String := none
  priceVal : JsVal := .null
  zestimateVal : JsVal := .null
  rangeVal : JsVal := .null
  rentVal : JsVal := .null
  factEntries : List (String × JsVal) := []   -- raw (label, value) pairs from the fact loops
  priceHistoryVal : JsVal := .null
  taxHistoryVal : JsVal := .null

/-- Build the Tier-2 record (lines 281-412): every field is assigned, `address`
possibly `null`; fact keys are `fact_` + slug of the raw label (lines 333-335). -/
def domExtract (d : DomSnapshot) : JRec :=
  let r := emptyRec.set .other "address"
    (match d.addressText with | some s => .str s | none => .null)
  let r := r.set .other "price" d.priceVal
  let r := r.set .other "zestimate" d.zestimateVal
  let r := r.set .other "estimated_sales_range" d.rangeVal
  let r := r.set .other "rent_zestimate" d.rentVal
  let r := d.factEntries.foldl
    (fun r e => r.set .other ("fact_" ++ slug e.1) e.2) r
  let r := r.set .other "price_history" d.priceHistoryVal
  r.set .other "public_tax_history" d.taxHistoryVal

/-- External outcomes observed during one `scrapeListingPage` call. -/
structure ListingSnapshot where
  createOk : Bool := true       -- `createSteelSession()` (line 221)
  gotoOk : Bool := true         -- `page.goto(url, ...)` (line 225)
  nextEvalOk : Bool := true     -- the `__NEXT_DATA__` evaluate itself (lines 229-237)
  nextDataTruthy : Bool := false -- `if (nextDataResult)` (line 239)
  propertyLookup : Option JsVal := none -- fed to `extractFromNextData`
  scrollOk : Bool := true       -- the scroll evaluate (lines 252-258)
  domEvalOk : Bool := true      -- the main DOM evaluate (line 281)
  dom : DomSnapshot := {}

/-- Tier-2 fallback (lines 248-415): scroll, (fully try-caught) button clicking,
evaluate, then `data.link = url; return data` — with NO address check. -/
def scrapeTier2 (url : String) (s : ListingSnapshot) : Except String JRec :=
  if !s.scrollOk then .error "evaluate failed"
  else if !s.domEvalOk then .error "evaluate failed"
  else .ok ((domExtract s.dom).set .other "link" (.str url))

/-- `scrapeListingPage` (lines 215-419), session plumbing aside (that is
`scrapeSessionEvents` below): navigate, try `__NEXT_DATA__`, return the Tier-1 record
only when it exists AND its `address` is truthy (line 241), else fall through to the
DOM fallback, which always returns its record. -/
def scrapeListingPage (url : String) (s : ListingSnapshot) : Except String JRec :=
  if !s.createOk then .error "provisioning error"
  else if !s.gotoOk then .error "navigation timeout"
  else if !s.nextEvalOk then .error "evaluate failed"
  else if s.nextDataTruthy then
    match extractFromNextData s.propertyLookup with
    | some extracted =>
      if jsTruthy (extracted.get "address") then
        .ok (extracted.set .other "link" (.str url))
      else scrapeTier2 url s
    | none => scrapeTier2 url s
  else scrapeTier2 url s

/-! ## Session lifecycle

`createSteelSession` / `releaseSteelSession` live in `steelClient.ts`, which is not part
of the reviewed sources.  Modelled from the spec: `acquire() -> Session | fails with
ProvisioningError` (a failed acquire yields no session) and `release(session) -> void`
"must never raise" (§4.2, §6).  A trace lists acquire/release events with session ids. -/

/-- One session-lifecycle event. -/
inductive SessEv where
  | acq (id : Nat)
  | rel (id : Nat)
deriving Repr, DecidableEq

/-- Ids acquired, in order. -/
def acqIds (t : List SessEv) : List Nat :=
  t.filterMap (fun e => match e with | .acq i => some i | _ => none)

/-- Ids released, in order. -/
def relIds (t : List SessEv) : List Nat :=
  t.filterMap (fun e => match e with | .rel i => some i | _ => none)

/-- A trace is balanced when the released ids are exactly the acquired ids (as a
multiset) and no id is acquired twice — i.e. every acquired session is released
exactly once and nothing is double-released. -/
def balancedTrace (t : List SessEv) : Prop :=
  (acqIds t).Perm (relIds t) ∧ (acqIds t).Nodup

instance (t : List SessEv) : Decidable (balancedTrace t) := by
  unfold balancedTrace; infer_instance

/-- Session events of one `scrapeListingPage` call (lines 219-222 and 416-418):
`let session = null; try { session = await createSteelSession(); ... } finally
{ if (session) await releaseSteelSession(session); }`.  The second component is the
call's outcome (`bodyFails` = any awaited step after acquisition throwing). -/
def scrapeSessionEvents (createOk bodyFails : Bool) : List SessEv × Except String Unit :=
  if createOk then
    ([SessEv.acq 0] ++ [SessEv.rel 0],
     if bodyFails then Except.error "worker error" else Except.ok ())
  else ([], Except.error "provisioning error")

/-! ## pageController: listing-URL discovery (lines 10-99)

JS regexes are modelled as explicit scanners with the same leftmost/greedy semantics:
`/(\d+)_zpid/` captures the first maximal digit run that is immediately followed by
`_zpid`; `/\/homedetails\/[^"?]+_zpid\//g` matches from each leftmost `/homedetails/`
the longest excluded-character-free span ending in `_zpid/`, resuming after the match. -/

/-- The literal `_zpid`. -/
def zpidLit : List Char := ['_', 'z', 'p', 'i', 'd']

/-- Scanner for `/(\d+)_zpid/`: `prev` says whether the previous character was a
digit (a digit run is only tried from its first character, which is where the JS
engine first succeeds, and the greedy `\d+` takes the whole run). -/
def zpidScan : Bool → List Char → Option (List Char)
  | _, [] => none
  | prev, c :: rest =>
    if !prev && c.isDigit then
      if zpidLit.isPrefixOf ((c :: rest).dropWhile Char.isDigit) then
        some ((c :: rest).takeWhile Char.isDigit)
      else zpidScan true rest
    else zpidScan c.isDigit rest

/-- `url.match(/(\d+)_zpid/)?.[1]` — the captured digit string, if any. -/
def zpidOf (s : String) : Option String :=
  (zpidScan false s.data).map String.mk

/-- The dedup key of a URL (pageController lines 65-66):
`const zpid = url.match(/(\d+)_zpid/)?.[1]; const key = zpid || url;`
(a captured digit string is nonempty, hence truthy). -/
def dedupKey (url : String) : String :=
  match zpidOf url with
  | some z => z
  | none => url

/-- `url.split("?")[0]` — everything before the first `?`. -/
def stripQuery (url : String) : String :=
  String.mk (url.data.takeWhile (fun c => c ≠ '?'))

/-- The literal `/homedetails/`. -/
def hdLit : List Char := ['/', 'h', 'o', 'm', 'e', 'd', 'e', 't', 'a', 'i', 'l', 's', '/']

/-- The literal `_zpid/`. -/
def zpidSlashLit : List Char := ['_', 'z', 'p', 'i', 'd', '/']

/-- Greedy backtracking of `[^"?]+_zpid\//`: the largest `k ≥ 1` with all of the
first `k` characters allowed and `_zpid/` following at position `k`. -/
def greedyK (excl : Char → Bool) (l : List Char) : Option Nat :=
  (List.range (l.length + 1)).reverse.find?
    (fun k => decide (1 ≤ k) && ((l.take k).all (fun c => !excl c))
      && zpidSlashLit.isPrefixOf (l.drop k))

/-- `matchAll` of `/\/homedetails\/[^X]+_zpid\//g` (with `X` the excluded character
class, which differs between the two strategies), fuel-structured; fuel `≥ length`
gives the full JS semantics: leftmost match, resume after the match end. -/
def matchHd (excl : Char → Bool) : Nat → List Char → List (List Char)
  | 0, _ => []
  | _, [] => []
  | fuel+1, l =>
    if hdLit.isPrefixOf l then
      match greedyK excl (l.drop hdLit.length) with
      | some k =>
        (hdLit ++ (l.drop hdLit.length).take k ++ zpidSlashLit)
          :: matchHd excl fuel (l.drop (hdLit.length + k + zpidSlashLit.length))
      | none => matchHd excl fuel l.tail
    else matchHd excl fuel l.tail

/-- Strategy-1 character class `[^"?]`. -/
def excl1 (c : Char) : Bool := c == '"' || c == '?'

/-- Strategy-2 character class: `"`, the single quote, `\` and `?`. -/
def excl2 (c : Char) : Bool := c == '"' || c == Char.ofNat 39 || c == '\\' || c == '?'

/-- All matches of the homedetails pattern in a string. -/
def hdMatches (excl : Char → Bool) (s : String) : List String :=
  (matchHd excl s.data.length s.data).map String.mk

/-- JS `String.prototype.includes`: does `needle` occur in `hay`? -/
def containsSub (needle : List Char) : List Char → Bool
  | [] => needle.isEmpty
  | c :: rest => needle.isPrefixOf (c :: rest) || containsSub needle rest

/-- What the search-results page delivers to the discovery pass. -/
structure SearchSnapshot where
  /-- `JSON.stringify(JSON.parse(nextDataScript.textContent || "{}"))`; `none` when
  the `script#__NEXT_DATA__` element is absent or its parse throws (the empty
  `catch` then leaves strategy 1 with no URLs). -/
  nextDataJson : Option String := none
  /-- `textContent` of every `<script>` element, in document order (strategy 2). -/
  scriptTexts : List String := []
  /-- `href` of every `a[href*="/homedetails/"]` anchor, in document order (the DOM
  pass, lines 89-95; resolved-href vs attribute differences are abstracted away). -/
  anchorHrefs : List String := []

/-- The shared push step of both strategies in `extractUrlsFromPageData`
(lines 22-29 / 40-47): prefix the domain, keep only matches with a parsable zpid,
de-duplicate by zpid.  State: (seen zpids, collected URLs). -/
def pushMatch (st : List String × List String) (m : String) : List String × List String :=
  match zpidOf m with
  | some z =>
    if z ∈ st.1 then st
    else (z :: st.1, st.2 ++ ["https://www.zillow.com" ++ m])
  | none => st

/-- One strategy-2 script (lines 36-49): only scripts containing both
`/homedetails/` and `_zpid` are scanned. -/
def scriptStep (st : List String × List String) (text : String) :
    List String × List String :=
  if (containsSub "/homedetails/".data text.data) && (containsSub "_zpid".data text.data) then
    (hdMatches excl2 text).foldl pushMatch st
  else st

/-- `extractUrlsFromPageData` (lines 10-54): strategy 1 over the stringified
`__NEXT_DATA__`; if it produced nothing, strategy 2 over every script text. -/
def extractUrlsFromPageData (snap : SearchSnapshot) : List String :=
  let st1 := match snap.nextDataJson with
    | some json => (hdMatches excl1 json).foldl pushMatch ([], [])
    | none => ([], [])
  if st1.2.length = 0 then
    (snap.scriptTexts.foldl scriptStep st1).2
  else st1.2

/-- `addUrl` (pageController lines 64-71): dedup by `dedupKey`, push the
query-stripped URL.  State: (seen keys, output). -/
def addUrl (st : List String × List String) (url : String) : List String × List String :=
  let key := dedupKey url
  if key ∈ st.1 then st else (key :: st.1, st.2 ++ [stripQuery url])

/-- The DOM anchors the selector keeps. -/
def domAnchorUrls (snap : SearchSnapshot) : List String :=
  snap.anchorHrefs.filter (fun h => containsSub "/homedetails/".data h.data)

/-- `extractListingUrls` (lines 60-99): embedded-JSON URLs first, then DOM anchors,
all through `addUrl` against one shared seen-set. -/
def extractListingUrls (snap : SearchSnapshot) : List String :=
  let jsonUrls := extractUrlsFromPageData snap
  let st := jsonUrls.foldl addUrl ([], [])
  ((domAnchorUrls snap).foldl addUrl st).2

/-- Specification-side dedup (spec §3 ItemReference): keep the first URL for each
dedup key, in order of first discovery; `seen` is the set of keys already taken. -/
def dedupByKeyAux (seen : List String) : List String → List String
  | [] => []
  | u :: rest =>
    if dedupKey u ∈ seen then dedupByKeyAux seen rest
    else u :: dedupByKeyAux (dedupKey u :: seen) rest

/-- Specification-side dedup from the empty seen-set. -/
def dedupByKeyFirst (l : List String) : List String := dedupByKeyAux [] l

/-! ## pageController: pagination (lines 104-154) -/

/-- Scanner for `replace(/\d+_p\//, "")` (first match only): remove the first maximal
digit run immediately followed by `_p/`, together with that suffix. -/
def stripPageSeg : Bool → List Char → List Char
  | _, [] => []
  | prev, c :: rest =>
    if !prev && c.isDigit then
      if ['_', 'p', '/'].isPrefixOf ((c :: rest).dropWhile Char.isDigit) then
        ((c :: rest).dropWhile Char.isDigit).drop 3
      else c :: stripPageSeg true rest
    else c :: stripPageSeg c.isDigit rest

/-- Does the string contain a `\d+_p/` match at all? -/
def hasPageSeg : Bool → List Char → Bool
  | _, [] => false
  | prev, c :: rest =>
    if !prev && c.isDigit then
      if ['_', 'p', '/'].isPrefixOf ((c :: rest).dropWhile Char.isDigit) then true
      else hasPageSeg true rest
    else hasPageSeg c.isDigit rest

/-- `replace(/\/$/, "/" + nextPage + "_p/")`: swap a trailing slash for the new
page segment; a string with no trailing slash is returned unchanged. -/
def swapTrailing (l : List Char) (nextPage : Nat) : List Char :=
  if l.getLast? = some '/' then
    l.dropLast ++ ('/' :: (Nat.repr nextPage).data ++ ['_', 'p', '/'])
  else l

/-- `buildNextPageUrl` (lines 104-108). -/
def buildNextPageUrl (searchUrl : String) (nextPage : Nat) : String :=
  String.mk (swapTrailing (stripPageSeg false searchUrl.data) nextPage)

/-- External outcomes observed during one `goToNextPage` call (lines 115-154).
Each `Except` is the delivered result of an awaited step ( `.error` = it threw,
caught by the surrounding `try` which returns `false`); the `Nat`s are the listing
counts the two `extractListingUrls` passes find. -/
structure NextPageOracle where
  gotoOk : Bool := true                      -- `page.goto(targetUrl, ...)` (line 122)
  firstCount : Except Unit Nat := .ok 0      -- first `extractListingUrls` (line 126)
  titleOk : Bool := true                     -- `page.title()` (line 133)
  reloadOk : Bool := true                    -- `page.reload(...)` (line 139)
  secondCount : Except Unit Nat := .ok 0     -- retry `extractListingUrls` (line 142)

/-- `goToNextPage`, returning its boolean result paired with the number of
`page.reload` attempts the call made. -/
def goToNextPage (o : NextPageOracle) : Bool × Nat :=
  if !o.gotoOk then (false, 0)
  else
    match o.firstCount with
    | .error _ => (false, 0)
    | .ok n =>
      if 0 < n then (true, 0)
      else if !o.titleOk then (false, 0)
      else if !o.reloadOk then (false, 1)
      else
        match o.secondCount with
        | .error _ => (false, 1)
        | .ok m => if 0 < m then (true, 1) else (false, 1)

/-! ## Orchestrator and batch scheduler (orchestrator.ts)

Worker completion is asynchronous; a `ChunkOracle` supplies the order in which the
workers of one chunk complete and the value the cancellation signal shows at each
sample point.  One JS fact is built in: within one chunk, the chunk-boundary check
(line 187) and every worker's pre-dispatch check (line 196) execute in the same
synchronous stretch (the `async` closures run up to their first `await` during
`chunk.map`, before any completion can resolve), so they all observe the same counter
value and the same signal sample. -/

/-- `MAX_LISTINGS` (orchestrator line 11). -/
def MAX_LISTINGS : Nat := 100

/-- `BATCH_CONCURRENCY` (orchestrator line 12). -/
def BATCH_CONCURRENCY : Nat := 5

/-- Per-item outcome (`ScrapeResult`, orchestrator lines 163-168).  `data` carries an
abstract token for the scraped record (the record's content plays no role here). -/
structure ScrapeResult where
  url : String
  success : Bool
  data : Option String := none
  error : Option String := none
deriving Repr, DecidableEq

/-- What one `scrapeListingPage(url, ...)` call would deliver: resolve with a record
(`ok = true`) or reject (`ok = false`, with the error message). -/
structure WorkerOutcome where
  ok : Bool := true
  errMsg : String := "worker error"
deriving Repr, DecidableEq

instance : Inhabited WorkerOutcome := ⟨{}⟩

/-- Scheduling oracle for one chunk. -/
structure ChunkOracle where
  /-- Cancellation-signal sample at the chunk boundary / dispatch stretch. -/
  abortAtChunk : Bool := false
  /-- Completion order: indices into the chunk; indices not listed complete
  afterwards in position order (`Promise.allSettled` awaits them all). -/
  order : List Nat := []
  /-- Cancellation-signal samples at successive completions. -/
  completionAborts : List Bool := []
deriving Repr

instance : Inhabited ChunkOracle := ⟨{}⟩

/-- The completion half of one worker closure (orchestrator lines 203-213): after
`scrapeListingPage` settles, re-check the counter and the signal; a resolved record is
accepted (counter incremented) only if both pass, otherwise it is discarded with the
mid-scrape skip message; a rejection reports the error message. -/
def completeWorker (maxCount completed : Nat) (abortSample : Bool)
    (url : String) (w : WorkerOutcome) : Nat × ScrapeResult :=
  if w.ok then
    if maxCount ≤ completed || abortSample then
      (completed, { url := url, success := false,
                    error := some "Skipped — limit reached mid-scrape" })
    else
      (completed + 1, { url := url, success := true, data := some url })
  else
    (completed, { url := url, success := false, error := some w.errMsg })

/-- Drive the pending workers of a chunk to completion in the given order.
`acc.get? j = some none` means worker `j` is still pending. -/
def completeFold (maxCount : Nat) (outcomeOf : String → WorkerOutcome)
    (chunk : List String) :
    List Nat → List Bool → Nat → List (Option ScrapeResult) →
    Nat × List (Option ScrapeResult)
  | [], _, completed, acc => (completed, acc)
  | j :: order, aborts, completed, acc =>
    match chunk.get? j with
    | none => completeFold maxCount outcomeOf chunk order aborts.tail completed acc
    | some url =>
      if (acc.getD j none).isSome then
        completeFold maxCount outcomeOf chunk order aborts.tail completed acc
      else
        let p := completeWorker maxCount completed (aborts.headD false) url (outcomeOf url)
        completeFold maxCount outcomeOf chunk order aborts.tail p.1 (acc.set j (some p.2))

/-- Run one chunk (orchestrator lines 189-227).  Dispatch phase: every pre-dispatch
check (line 196) samples the same counter value and signal as the chunk-boundary check
(see the section header), producing either an immediate skip result or a pending
worker; `invoked` lists the URLs whose `scrapeListingPage` actually ran.  Completion
phase: oracle order first, stragglers in position order; `Promise.allSettled` then
yields the results in dispatch order.  Returns (new counter, results, invoked). -/
def runChunk (maxCount : Nat) (outcomeOf : String → WorkerOutcome)
    (oracle : ChunkOracle) (completed : Nat) (chunk : List String) :
    Nat × List ScrapeResult × List String :=
  let pre : List (Option ScrapeResult) := chunk.map (fun url =>
    if maxCount ≤ completed || oracle.abortAtChunk then
      some { url := url, success := false, error := some "Skipped — limit reached" }
    else none)
  let invoked := ((chunk.zip pre).filter (fun p => p.2.isNone)).map (fun p => p.1)
  let done := completeFold maxCount outcomeOf chunk
    (oracle.order ++ List.range chunk.length) oracle.completionAborts completed pre
  let results := (List.range chunk.length).map (fun j =>
    -- the default mirrors the rejected-promise arm (lines 220-226), which the
    -- worker closures (all exceptions caught, line 209) never reach
    (done.2.getD j none).getD { url := "unknown", success := false, error := some "unknown" })
  (done.1, results, invoked)

/-- The chunk loop of `scrapeListingsBatch` (lines 186-228): before each chunk, check
the counter and the signal and stop the whole batch if either trips. -/
def runBatches (maxCount : Nat) (outcomeOf : String → WorkerOutcome) :
    List (List String) → List ChunkOracle → Nat →
    List ScrapeResult × List String × Nat
  | [], _, completed => ([], [], completed)
  | c :: rest, oracles, completed =>
    let oracle := oracles.headD default
    if maxCount ≤ completed || oracle.abortAtChunk then ([], [], completed)
    else
      let step := runChunk maxCount outcomeOf oracle completed c
      let next := runBatches maxCount outcomeOf rest oracles.tail step.1
      (step.2.1 ++ next.1, step.2.2 ++ next.2.1, next.2.2)

/-- `scrapeListingsBatch` (lines 175-231): chunk the URLs by `BATCH_CONCURRENCY` and
run the chunk loop.  Returns (results, invoked URLs). -/
def scrapeListingsBatch (urls : List String) (outcomeOf : String → WorkerOutcome)
    (oracles : List ChunkOracle) (currentCount maxCount : Nat) :
    List ScrapeResult × List String :=
  let r := runBatches maxCount outcomeOf (chunkAux BATCH_CONCURRENCY urls.length urls)
    oracles currentCount
  (r.1, r.2.1)

/-- The per-page result consumption loop of `orchestrate` (lines 116-132): on
`result.success && result.data`, append to the accumulator and increment the counter;
after every iteration, break once the counter has reached `MAX_LISTINGS`.
State: (counter, accumulator rows). -/
def consumeResults : List ScrapeResult → Nat → List String → Nat × List String
  | [], c, rows => (c, rows)
  | res :: rest, c, rows =>
    let hit := res.success && res.data.isSome
    let c' := if hit then c + 1 else c
    let rows' := if hit then rows ++ [res.data.getD ""] else rows
    if MAX_LISTINGS ≤ c' then (c', rows') else consumeResults rest c' rows'

/-- Everything external one pagination-loop iteration observes. -/
structure PageOracle where
  /-- Signal sample at the loop-top check (line 85). -/
  abortAtTop : Bool := false
  /-- `extractListingUrls` (line 89) throwing unwinds to the orchestrator catch. -/
  extractThrows : Bool := false
  /-- The listing URLs the page yields. -/
  listingUrls : List String := []
  /-- Scheduling oracles for the batch run on this page. -/
  chunkOracles : List ChunkOracle := []
  /-- `createSteelSession()` for the next page (line 144) succeeding. -/
  createOk : Bool := true
  /-- `goToNextPage` result (line 146). -/
  hasNext : Bool := true

instance : Inhabited PageOracle := ⟨{}⟩

/-- Everything external one `orchestrate` run observes.  `pages` doubles as fuel for
the pagination loop: exhausting it is modelled as a clean loop exit (every finite
prefix of an infinite run is covered, which suffices for the safety claims). -/
structure OrchOracle where
  /-- The initial `createSteelSession()` (line 75) succeeding. -/
  createOk : Bool := true
  /-- The initial `page.goto(searchUrl, ...)` (line 79) succeeding. -/
  gotoOk : Bool := true
  /-- Per-iteration observations. -/
  pages : List PageOracle := []
  /-- Per-URL worker outcomes. -/
  outcomeOf : String → WorkerOutcome := fun _ => {}

/-- Orchestrator loop state: counter, accumulator rows, session trace, the navigation
session currently held, and the next fresh session id. -/
structure OrchSt where
  count : Nat
  rows : List String
  trace : List SessEv
  mainSession : Option Nat
  nextId : Nat

/-- Result of a run: final state plus terminal status. -/
structure OrchResult where
  count : Nat
  rows : List String
  trace : List SessEv
  status : String

/-- The pagination loop of `orchestrate` (lines 84-149).  Returns the state at loop
exit and whether an exception is unwinding (to the catch at line 155).  Release events
come from line 138 (between pages); the failed-create path (line 144) leaves
`mainSession` null so the `finally` has nothing to release. -/
def orchLoop (outcomeOf : String → WorkerOutcome) :
    List PageOracle → OrchSt → OrchSt × Bool
  | [], st => (st, false)
  | p :: rest, st =>
    if MAX_LISTINGS ≤ st.count then (st, false)
    else if p.abortAtTop then (st, false)
    else if p.extractThrows then (st, true)
    else if p.listingUrls.length = 0 then (st, false)
    else
      let toScrape := p.listingUrls.take (MAX_LISTINGS - st.count)
      let batch := scrapeListingsBatch toScrape outcomeOf p.chunkOracles st.count MAX_LISTINGS
      let consumed := consumeResults batch.1 st.count st.rows
      let st1 : OrchSt := { st with count := consumed.1, rows := consumed.2 }
      if MAX_LISTINGS ≤ st1.count then (st1, false)
      else
        let st2 : OrchSt := match st1.mainSession with
          | some m => { st1 with trace := st1.trace ++ [SessEv.rel m], mainSession := none }
          | none => st1
        if !p.createOk then (st2, true)
        else
          let st3 : OrchSt :=
            { st2 with
              trace := st2.trace ++ [SessEv.acq st2.nextId],
              mainSession := some st2.nextId,
              nextId := st2.nextId + 1 }
          if !p.hasNext then (st3, false)
          else orchLoop outcomeOf rest st3

/-- The `finally` of `orchestrate` (lines 158-160): release the held navigation
session, if any, then report. -/
def finalizeOrch (st : OrchSt) (status : String) : OrchResult :=
  let trace := match st.mainSession with
    | some m => st.trace ++ [SessEv.rel m]
    | none => st.trace
  { count := st.count, rows := st.rows, trace := trace, status := status }

/-- `orchestrate` (lines 64-161): initial acquire and navigation, the pagination loop,
the catch (status `error`) and the `finally` (release the held session exactly once). -/
def orchestrate (o : OrchOracle) : OrchResult :=
  if !o.createOk then
    { count := 0, rows := [], trace := [], status := "error" }
  else
    let st0 : OrchSt := { count := 0, rows := [], trace := [SessEv.acq 0],
                          mainSession := some 0, nextId := 1 }
    if !o.gotoOk then finalizeOrch st0 "error"
    else
      let r := orchLoop o.outcomeOf o.pages st0
      finalizeOrch r.1 (if r.2 then "error" else "completed")

/-! ## Write-trace predicates and concrete instances used by the claims -/

/-- The three fact-deriving passes. -/
def factPass : Pass → Bool
  | .basicFacts => true
  | .dictFacts => true
  | .glanceFacts => true
  | .other => false

/-- The passes that run after the basic facts and must not clobber them. -/
def laterPass : Pass → Bool
  | .dictFacts => true
  | .glanceFacts => true
  | _ => false

/-- The fact-write discipline the code actually enforces: every fact-pass write is
`fact_`-namespaced, and the dictionary/at-a-glance passes only ever write over a
falsy (unset or empty) current value. -/
def goodWrites (r : JRec) : Prop :=
  ∀ e ∈ r.writes,
    (factPass e.pass = true → ∃ t, e.key = "fact_" ++ t) ∧
    (laterPass e.pass = true → jsTruthy e.old = false)

/-- Invariant of the orchestrator loop state: navigation-session ids are allocated
sequentially; every acquired id has been released except the currently held session,
which is the most recently allocated one. -/
def navInv (st : OrchSt) : Prop :=
  match st.mainSession with
  | none => acqIds st.trace = List.range st.nextId ∧ relIds st.trace = List.range st.nextId
  | some m => st.nextId = m + 1 ∧ acqIds st.trace = List.range st.nextId
      ∧ relIds st.trace = List.range m

/-- The spec's scenario payload: `zestimate=500000, zestimateLowPercent=5,
zestimateHighPercent=3`. -/
def p500k : JsVal := .obj
  [("zestimate", .num ⟨500000, 1⟩),
   ("zestimateLowPercent", .num ⟨5, 1⟩),
   ("zestimateHighPercent", .num ⟨3, 1⟩)]

/-- A payload whose center zestimate is present but `0` (JS-falsy). -/
def pZero : JsVal := .obj
  [("zestimate", .num ⟨0, 1⟩),
   ("zestimateLowPercent", .num ⟨5, 1⟩),
   ("zestimateHighPercent", .num ⟨3, 1⟩)]

/-- A payload with `bedrooms = ""` (sets `fact_bedrooms` to the empty string in the
basic pass), a `resoFacts.bedrooms = 3` (dictionary pass), and an at-a-glance entry
whose value is the literal `"None"`. -/
def pC8 : JsVal := .obj
  [("bedrooms", .str ""),
   ("resoFacts", .obj
     [("bedrooms", .num ⟨3, 1⟩),
      ("atAGlanceFacts", .arr
        [.obj [("factLabel", .str "Heating"), ("factValue", .str "None")]])])]

/-- The record `extractFromNextData` produces on `pC8`. -/
def recC8 : JRec := (extractFromNextData (some pC8)).getD emptyRec

/-- The record `extractFromNextData` produces on `p500k`. -/
def rec500k : JRec := (extractFromNextData (some p500k)).getD emptyRec

/-- Two DOM anchors that differ only in their query string. -/
def snapC5 : SearchSnapshot :=
  { anchorHrefs := ["https://z/homedetails/x?a", "https://z/homedetails/x?b"] }

/-- A query-free snapshot exercising both discovery sources. -/
def snapC5ok : SearchSnapshot :=
  { nextDataJson := some "k:/homedetails/12-oak-st-33_zpid/,v:/homedetails/9_zpid/",
    anchorHrefs := ["https://www.zillow.com/homedetails/9_zpid/",
                    "https://w/homedetails/77_zpid/",
                    "https://w/homedetails/77_zpid/"] }

/-- A Tier-2 snapshot whose DOM has no address element. -/
def snapNoAddr : ListingSnapshot := {}

/-- A Tier-1 snapshot with a complete address. -/
def snapT1 : ListingSnapshot :=
  { nextDataTruthy := true,
    propertyLookup := some (JsVal.obj
      [("address", .obj [("streetAddress", .str "1 Main St"), ("city", .str "Town")])]) }

/-- The record the Tier-1 snapshot produces. -/
def recT1 : JRec := (scrapeListingPage "u" snapT1).toOption.getD emptyRec

/-- The Tier-1 extraction result for `snapT1`. -/
def exT1 : JRec := (extractFromNextData snapT1.propertyLookup).getD emptyRec

/-- The seven URLs of the C3 scenario. -/
def urls7 : List String := ["u1", "u2", "u3", "u4", "u5", "u6", "u7"]

/-- A small two-page orchestrator oracle for witnesses. -/
def oracleEx : OrchOracle :=
  { pages := [{ listingUrls := ["a", "b", "c"] }, { listingUrls := ["d"], hasNext := false }] }

end ZS

namespace ZS

/-! # Theorems -/

/-! ## Record-access lemmas -/

theorem find_setPairs_self (fs : List (String × JsVal)) (k : String) (v : JsVal) :
    (setPairs fs k v).find? (fun p => p.1 == k) = some (k, v)
    ∨ ∃ k', (setPairs fs k v).find? (fun p => p.1 == k) = some (k', v) ∧ k' = k := by
  induction fs with
  | nil => simp [setPairs, List.find?]
  | cons h t ih =>
    simp only [setPairs]
    by_cases hk : h.1 == k
    · simp only [hk, if_pos rfl]
      right
      exact ⟨h.1, by simp [List.find?, hk], by simpa using hk⟩
    · simp only [hk]
      simp only [Bool.false_eq_true, if_false, List.find?, hk]
      exact ih

theorem get_set_self (r : JRec) (p : Pass) (k : String) (v : JsVal) :
    (r.set p k v).get k = v := by
  show (match (setPairs r.fields k v).find? (fun p => p.1 == k) with
        | some p => p.2 | none => .undefined) = v
  rcases find_setPairs_self r.fields k v with h | ⟨k', h, _⟩ <;> rw [h]

theorem find_setPairs_ne (fs : List (String × JsVal)) (k k' : String) (v : JsVal)
    (h : k ≠ k') :
    (setPairs fs k' v).find? (fun p => p.1 == k) = fs.find? (fun p => p.1 == k) := by
  induction fs with
  | nil =>
    simp [setPairs, List.find?, show (k' == k) = false from by simpa using (Ne.symm h)]
  | cons hd t ih =>
    simp only [setPairs]
    by_cases hk : hd.1 == k'
    · have h1 : (hd.1 == k) = false := by
        have : hd.1 = k' := by simpa using hk
        simpa [this] using (Ne.symm h)
      simp [hk, List.find?, h1]
    · simp [hk, List.find?, ih]

theorem get_set_ne (r : JRec) (p : Pass) (k k' : String) (v : JsVal) (h : k ≠ k') :
    (r.set p k' v).get k = r.get k := by
  show (match (setPairs r.fields k' v).find? (fun p => p.1 == k) with
        | some p => p.2 | none => .undefined) = r.get k
  rw [find_setPairs_ne r.fields k k' v h]
  rfl

theorem get_setIfUnset_ne (r : JRec) (p : Pass) (k k' : String) (v : JsVal) (h : k ≠ k') :
    (r.setIfUnset p k' v).get k = r.get k := by
  unfold JRec.setIfUnset
  split
  · rfl
  · exact get_set_ne r p k k' v h

/-! ## C7: `buildNextPageUrl` -/

theorem stripPageSeg_no (l : List Char) :
    ∀ prev, hasPageSeg prev l = false → stripPageSeg prev l = l := by
  induction l with
  | nil => intro prev _; rfl
  | cons c rest ih =>
    intro prev h
    unfold hasPageSeg at h
    unfold stripPageSeg
    by_cases h1 : (!prev && c.isDigit) = true
    · simp only [h1, if_true] at h ⊢
      by_cases h2 : (['_', 'p', '/'].isPrefixOf ((c :: rest).dropWhile Char.isDigit)) = true
      · simp [h2] at h
      · simp only [h2, if_false, Bool.false_eq_true] at h ⊢
        rw [ih true h]
    · simp only [h1, if_false, Bool.false_eq_true] at h ⊢
      rw [ih c.isDigit h]

/-- C7 (confirmed): `buildNextPageUrl` strips the page segment and swaps the trailing
slash for the requested one — `"https://x/search/1_p/"`, `2` maps to
`"https://x/search/2_p/"` — and on a URL with no existing page segment it appends the
requested segment before the trailing slash. -/
theorem buildNextPageUrl_spec :
    buildNextPageUrl "https://x/search/1_p/" 2 = "https://x/search/2_p/"
  ∧ ∀ (u : String) (n : Nat), hasPageSeg false u.data = false →
      u.data.getLast? = some '/' →
      buildNextPageUrl u n =
        String.mk (u.data.dropLast ++ ('/' :: (Nat.repr n).data ++ ['_', 'p', '/'])) := by
  refine ⟨by decide, ?_⟩
  intro u n h1 h2
  unfold buildNextPageUrl
  rw [stripPageSeg_no u.data false h1]
  unfold swapTrailing
  rw [if_pos h2]

theorem buildNextPageUrl_spec_witness :
    hasPageSeg false ("https://x/abc/").data = false
  ∧ ("https://x/abc/").data.getLast? = some '/'
  ∧ buildNextPageUrl "https://x/abc/" 3 =
      String.mk (("https://x/abc/").data.dropLast ++ ('/' :: (Nat.repr 3).data ++ ['_', 'p', '/'])) :=
  ⟨by decide, by decide,
   buildNextPageUrl_spec.2 "https://x/abc/" 3 (by decide) (by decide)⟩

/-! ## C9: `goToNextPage` -/

/-- C9 (confirmed): `goToNextPage` reloads at most once per call, returns `true` as
soon as the first discovery — or the single retry — finds at least one reference, and
returns `false` after two consecutive zero-reference results. -/
theorem goToNextPage_spec : ∀ o : NextPageOracle,
    (goToNextPage o).2 ≤ 1
  ∧ (∀ n, o.gotoOk = true → o.firstCount = .ok n → 0 < n → goToNextPage o = (true, 0))
  ∧ (∀ m, o.gotoOk = true → o.firstCount = .ok 0 → o.titleOk = true →
      o.reloadOk = true → o.secondCount = .ok m → 0 < m → goToNextPage o = (true, 1))
  ∧ (o.gotoOk = true → o.firstCount = .ok 0 → o.titleOk = true →
      o.reloadOk = true → o.secondCount = .ok 0 → goToNextPage o = (false, 1)) := by
  intro o
  obtain ⟨g, fc, t, r, sc⟩ := o
  refine ⟨?_, ?_, ?_, ?_⟩
  · cases g <;> rcases fc with _ | n <;> simp [goToNextPage] <;>
      cases t <;> cases r <;> rcases sc with _ | m <;>
      split_ifs <;> simp <;> split_ifs <;> simp
  · intro n hg hfc hn
    subst hg
    cases hfc
    simp [goToNextPage, hn]
  · intro m hg hfc ht hr hsc hm
    subst hg; subst ht; subst hr
    cases hfc
    cases hsc
    simp [goToNextPage, hm]
  · intro hg hfc ht hr hsc
    subst hg; subst ht; subst hr
    cases hfc
    cases hsc
    simp [goToNextPage]

theorem goToNextPage_spec_witness :
    goToNextPage { firstCount := .ok 0, secondCount := .ok 4 } = (true, 1)
  ∧ goToNextPage { firstCount := .ok 0, secondCount := .ok 0 } = (false, 1) :=
  ⟨(goToNextPage_spec { firstCount := .ok 0, secondCount := .ok 4 }).2.2.1 4
      rfl rfl rfl rfl rfl (by decide),
   (goToNextPage_spec { firstCount := .ok 0, secondCount := .ok 0 }).2.2.2
      rfl rfl rfl rfl rfl⟩

/-! ## C10: a record resolved after the cap is discarded -/

/-- C10 (confirmed): a worker whose `scrapeListingPage` call resolves after the shared
counter has reached the cap (or after cancellation) has its record silently discarded:
the outcome carries `success = false`, the message `"Skipped — limit reached
mid-scrape"`, no record data, and the counter is not incremented. -/
theorem completeWorker_discards_after_cap :
    ∀ (maxCount completed : Nat) (abortSample : Bool) (url : String) (w : WorkerOutcome),
      w.ok = true → (maxCount ≤ completed ∨ abortSample = true) →
      completeWorker maxCount completed abortSample url w =
        (completed, { url := url, success := false, data := none,
                      error := some "Skipped — limit reached mid-scrape" }) := by
  intro mc c a url w hw h
  have hc : (decide (mc ≤ c) || a) = true := by
    rcases h with h | h
    · simp [h]
    · simp [h]
  unfold completeWorker
  simp [hw, hc]

theorem completeWorker_discards_witness :
    completeWorker 100 100 false "u" {} =
      (100, { url := "u", success := false, data := none,
              error := some "Skipped — limit reached mid-scrape" }) :=
  completeWorker_discards_after_cap 100 100 false "u" {} rfl (Or.inl (Nat.le_refl 100))

/-! ## C3: the 7-URL / cap-minus-2 scenario -/

/-- C3 (counterexample): the claim asserts 7 reported outcomes — 2 successes and 5
cap-skips whose workers are never invoked.  In fact only 5 outcomes are produced
(the second chunk is dropped wholesale by the chunk-boundary check, so URLs 6 and 7
get no outcome at all), only 3 are skips, and all 5 first-chunk workers are invoked. -/
theorem batch7_counterexample :
    ¬ ((scrapeListingsBatch urls7 (fun _ => default) [] 98 100).1.length = 7
       ∧ ((scrapeListingsBatch urls7 (fun _ => default) [] 98 100).1.filter
            (fun r => !r.success)).length = 5
       ∧ (scrapeListingsBatch urls7 (fun _ => default) [] 98 100).2.length = 2) := by
  decide

/-- C3 (amended): with the counter at cap−2, the chunk-boundary check admits the whole
first chunk and — dispatch being synchronous — all 5 of its workers are invoked; the
first two completions are accepted as successes, the remaining three are reported as
mid-scrape skips, and the second chunk (URLs 6 and 7) is dropped before dispatch,
producing no outcomes at all. -/
theorem batch7_amended :
    scrapeListingsBatch urls7 (fun _ => default) [] 98 100 =
      ([{ url := "u1", success := true, data := some "u1" },
        { url := "u2", success := true, data := some "u2" },
        { url := "u3", success := false, error := some "Skipped — limit reached mid-scrape" },
        { url := "u4", success := false, error := some "Skipped — limit reached mid-scrape" },
        { url := "u5", success := false, error := some "Skipped — limit reached mid-scrape" }],
       ["u1", "u2", "u3", "u4", "u5"]) := by
  decide

/-! ## C6 and C2: counterexamples -/

/-- C6 (counterexample): a present-but-zero center zestimate with both percent offsets
present yields `estimated_sales_range = null`, because the source gates on JS
truthiness of the center value, not on presence. -/
theorem rangeZero_counterexample :
    jsNeNull (jsGetD pZero "zestimate") = true
  ∧ jsNeNull (jsGetD pZero "zestimateLowPercent") = true
  ∧ jsNeNull (jsGetD pZero "zestimateHighPercent") = true
  ∧ (extractFromNextData (some pZero)).map (fun r => r.get "estimated_sales_range") =
      some JsVal.null :=
  ⟨rfl, rfl, rfl, rfl⟩

/-! ## C1: the accumulator never exceeds the cap -/

theorem consumeResults_le (rs : List ScrapeResult) :
    ∀ (c : Nat) (rows : List String), c < MAX_LISTINGS →
      (consumeResults rs c rows).1 ≤ MAX_LISTINGS := by
  induction rs with
  | nil => intro c rows h; exact Nat.le_of_lt h
  | cons res rest ih =>
    intro c rows h
    unfold consumeResults
    by_cases hhit : (res.success && res.data.isSome) = true
    · simp only [hhit, if_true]
      by_cases hc : MAX_LISTINGS ≤ c + 1
      · simp only [hc, if_true]
        exact h
      · simp only [hc, if_false]
        exact ih (c + 1) (rows ++ [res.data.getD ""]) (Nat.lt_of_not_le hc)
    · simp only [hhit, Bool.false_eq_true, if_false]
      by_cases hc : MAX_LISTINGS ≤ c
      · exact absurd h (Nat.not_lt_of_le hc)
      · simp only [hc, if_false]
        exact ih c rows (Nat.lt_of_not_le hc)

theorem consumeResults_rows (rs : List ScrapeResult) :
    ∀ (c : Nat) (rows : List String), rows.length = c →
      (consumeResults rs c rows).2.length = (consumeResults rs c rows).1 := by
  induction rs with
  | nil => intro c rows h; exact h
  | cons res rest ih =>
    intro c rows h
    unfold consumeResults
    by_cases hhit : (res.success && res.data.isSome) = true
    · simp only [hhit, if_true]
      by_cases hc : MAX_LISTINGS ≤ c + 1
      · simp only [hc, if_true, List.length_append, h]
        rfl
      · simp only [hc, if_false]
        exact ih (c + 1) (rows ++ [res.data.getD ""]) (by simp [h])
    · simp only [hhit, Bool.false_eq_true, if_false]
      by_cases hc : MAX_LISTINGS ≤ c
      · simp only [hc, if_true]
        exact h
      · simp only [hc, if_false]
        exact ih c rows h

theorem orchLoop_cap (f : String → WorkerOutcome) (pages : List PageOracle) :
    ∀ st : OrchSt, st.count ≤ MAX_LISTINGS → st.rows.length = st.count →
      (orchLoop f pages st).1.count ≤ MAX_LISTINGS
      ∧ (orchLoop f pages st).1.rows.length = (orchLoop f pages st).1.count := by
  induction pages with
  | nil => intro st h1 h2; exact ⟨h1, h2⟩
  | cons p rest ih =>
    intro st h1 h2
    unfold orchLoop
    by_cases hc : MAX_LISTINGS ≤ st.count
    · simp only [hc, if_true]; exact ⟨h1, h2⟩
    · simp only [hc, if_false]
      by_cases ha : p.abortAtTop = true
      · simp only [ha, if_true]; exact ⟨h1, h2⟩
      · simp only [ha, Bool.false_eq_true, if_false]
        by_cases he : p.extractThrows = true
        · simp only [he, if_true]; exact ⟨h1, h2⟩
        · simp only [he, Bool.false_eq_true, if_false]
          by_cases hz : p.listingUrls.length = 0
          · simp only [hz, if_true]; exact ⟨h1, h2⟩
          · simp only [hz, if_false]
            have hlt : st.count < MAX_LISTINGS := Nat.lt_of_not_le hc
            set batch := scrapeListingsBatch (p.listingUrls.take (MAX_LISTINGS - st.count))
              f p.chunkOracles st.count MAX_LISTINGS with hbatch
            have hle := consumeResults_le batch.1 st.count st.rows hlt
            have hrows := consumeResults_rows batch.1 st.count st.rows h2
            by_cases hm : MAX_LISTINGS ≤ (consumeResults batch.1 st.count st.rows).1
            · simp only [hm, if_true]
              exact ⟨hle, hrows⟩
            · simp only [hm, if_false]
              rcases hms : st.mainSession with _ | m <;>
              cases hco : p.createOk <;>
              cases hn : p.hasNext <;>
              simp only [hms, hco, hn, Bool.not_true, Bool.not_false, if_true,
                Bool.false_eq_true, if_false] <;>
              first
                | exact ⟨hle, hrows⟩
                | exact ih _ hle hrows

/-- C1 (confirmed): for every oracle — every sequence of per-page reference lists,
per-worker outcomes, completion orders and cancellation samples — the number of records
appended to the accumulator (`schema.addRow` calls, i.e. `rows`) and the final global
counter never exceed `MAX_LISTINGS`. -/
theorem orchestrate_cap : ∀ o : OrchOracle,
    (orchestrate o).rows.length ≤ MAX_LISTINGS
    ∧ (orchestrate o).count ≤ MAX_LISTINGS := by
  intro o
  unfold orchestrate
  by_cases hco : o.createOk = true
  · simp only [hco, Bool.not_true, Bool.false_eq_true, if_false]
    by_cases hg : o.gotoOk = true
    · simp only [hg, Bool.not_true, Bool.false_eq_true, if_false]
      have h := orchLoop_cap o.outcomeOf o.pages
        { count := 0, rows := [], trace := [SessEv.acq 0], mainSession := some 0, nextId := 1 }
        (Nat.zero_le _) rfl
      unfold finalizeOrch
      exact ⟨le_of_eq_of_le h.2 h.1, h.1⟩
    · simp only [Bool.not_eq_true] at hg
      simp only [hg, Bool.not_false, if_true]
      unfold finalizeOrch
      exact ⟨by simp [MAX_LISTINGS], by simp [MAX_LISTINGS]⟩
  · simp only [Bool.not_eq_true] at hco
    simp only [hco, Bool.not_false, if_true]
    exact ⟨by simp [MAX_LISTINGS], by simp [MAX_LISTINGS]⟩

theorem orchestrate_cap_witness :
    (orchestrate oracleEx).rows.length ≤ MAX_LISTINGS
    ∧ (orchestrate oracleEx).count ≤ MAX_LISTINGS :=
  orchestrate_cap oracleEx

/-! ## C4: every session released exactly once -/

theorem acqIds_append (t s : List SessEv) : acqIds (t ++ s) = acqIds t ++ acqIds s := by
  simp [acqIds, List.filterMap_append]

theorem relIds_append (t s : List SessEv) : relIds (t ++ s) = relIds t ++ relIds s := by
  simp [relIds, List.filterMap_append]

theorem navInv_after_rel (t : List SessEv) (m : Nat) (c : Nat) (rws : List String)
    (h1 : acqIds t = List.range (m + 1)) (h2 : relIds t = List.range m) :
    navInv { count := c, rows := rws, trace := t ++ [SessEv.rel m],
             mainSession := none, nextId := m + 1 } := by
  refine ⟨?_, ?_⟩
  · rw [acqIds_append, h1]
    simp [acqIds, List.filterMap]
  · rw [relIds_append, h2, List.range_succ]
    simp [relIds, List.filterMap]

theorem navInv_after_relacq (t : List SessEv) (m : Nat) (c : Nat) (rws : List String)
    (h1 : acqIds t = List.range (m + 1)) (h2 : relIds t = List.range m) :
    navInv { count := c, rows := rws,
             trace := (t ++ [SessEv.rel m]) ++ [SessEv.acq (m + 1)],
             mainSession := some (m + 1), nextId := m + 1 + 1 } := by
  refine ⟨rfl, ?_, ?_⟩
  · rw [acqIds_append, acqIds_append, h1, List.range_succ (n := m + 1)]
    simp [acqIds, List.filterMap]
  · rw [relIds_append, relIds_append, h2, List.range_succ]
    simp [relIds, List.filterMap]

theorem navInv_acq_none (t : List SessEv) (nid : Nat) (c : Nat) (rws : List String)
    (h1 : acqIds t = List.range nid) (h2 : relIds t = List.range nid) :
    navInv { count := c, rows := rws, trace := t ++ [SessEv.acq nid],
             mainSession := some nid, nextId := nid + 1 } := by
  refine ⟨rfl, ?_, ?_⟩
  · rw [acqIds_append, h1, List.range_succ]
    simp [acqIds, List.filterMap]
  · rw [relIds_append, h2]
    simp [relIds, List.filterMap]

theorem orchLoop_nav (f : String → WorkerOutcome) (pages : List PageOracle) :
    ∀ st : OrchSt, navInv st → navInv (orchLoop f pages st).1 := by
  induction pages with
  | nil => intro st h; exact h
  | cons p rest ih =>
    intro st h
    unfold orchLoop
    by_cases hc : MAX_LISTINGS ≤ st.count
    · simp only [hc, if_true]; exact h
    · simp only [hc, if_false]
      by_cases ha : p.abortAtTop = true
      · simp only [ha, if_true]; exact h
      · simp only [ha, Bool.false_eq_true, if_false]
        by_cases he : p.extractThrows = true
        · simp only [he, if_true]; exact h
        · simp only [he, Bool.false_eq_true, if_false]
          by_cases hz : p.listingUrls.length = 0
          · simp only [hz, if_true]; exact h
          · simp only [hz, if_false]
            set c' := (consumeResults
              (scrapeListingsBatch (p.listingUrls.take (MAX_LISTINGS - st.count))
                f p.chunkOracles st.count MAX_LISTINGS).1 st.count st.rows).1
            set rws' := (consumeResults
              (scrapeListingsBatch (p.listingUrls.take (MAX_LISTINGS - st.count))
                f p.chunkOracles st.count MAX_LISTINGS).1 st.count st.rows).2
            by_cases hm : MAX_LISTINGS ≤ c'
            · simp only [hm, if_true]
              exact h
            · simp only [hm, if_false]
              rcases hms : st.mainSession with _ | m
              · -- no held session: st2 = st1, only an acquire happens
                simp only [navInv, hms] at h
                simp only [hms]
                cases hco : p.createOk
                · simp only [Bool.not_false, if_true]
                  show navInv { count := c', rows := rws', trace := st.trace,
                                mainSession := none, nextId := st.nextId }
                  exact h
                · simp only [Bool.not_true, Bool.false_eq_true, if_false]
                  cases hn : p.hasNext
                  · simp only [Bool.not_false, if_true]
                    exact navInv_acq_none st.trace st.nextId c' rws' h.1 h.2
                  · simp only [Bool.not_true, Bool.false_eq_true, if_false]
                    exact ih _ (navInv_acq_none st.trace st.nextId c' rws' h.1 h.2)
              · -- held session m: release, then (possibly) acquire
                simp only [navInv, hms] at h
                obtain ⟨h1, h2, h3⟩ := h
                rw [h1] at h2
                simp only [hms]
                cases hco : p.createOk
                · simp only [Bool.not_false, if_true]
                  rw [h1]
                  exact navInv_after_rel st.trace m c' rws' h2 h3
                · simp only [Bool.not_true, Bool.false_eq_true, if_false]
                  cases hn : p.hasNext
                  · simp only [Bool.not_false, if_true]
                    rw [h1]
                    exact navInv_after_relacq st.trace m c' rws' h2 h3
                  · simp only [Bool.not_true, Bool.false_eq_true, if_false]
                    rw [h1]
                    exact ih _ (navInv_after_relacq st.trace m c' rws' h2 h3)

theorem balanced_finalize (st : OrchSt) (status : String) (h : navInv st) :
    balancedTrace (finalizeOrch st status).trace := by
  unfold finalizeOrch balancedTrace
  rcases hms : st.mainSession with _ | m
  · simp only [hms]
    simp only [navInv, hms] at h
    rw [h.1, h.2]
    exact ⟨List.Perm.refl _, List.nodup_range _⟩
  · simp only [hms]
    simp only [navInv, hms] at h
    obtain ⟨h1, h2, h3⟩ := h
    rw [acqIds_append, relIds_append, h2, h3, h1]
    constructor
    · show (List.range (m + 1) ++ acqIds [SessEv.rel m]).Perm
        (List.range m ++ relIds [SessEv.rel m])
      simp only [acqIds, relIds, List.filterMap]
      rw [List.append_nil, ← List.range_succ]
    · simp only [acqIds, List.filterMap, List.append_nil]
      exact List.nodup_range _

/-- C4 (confirmed; spec-modelled session provider): every session acquired via
`createSteelSession` is released via `releaseSteelSession` exactly once on every exit
path — the worker via its `try/finally` whether it returns or throws, and the
orchestrator for the navigation session across cap exit, page exhaustion,
cancellation, and exception paths — and no session is ever released twice. -/
theorem sessions_balanced :
    (∀ (createOk bodyFails : Bool),
        balancedTrace (scrapeSessionEvents createOk bodyFails).1)
  ∧ (∀ o : OrchOracle, balancedTrace (orchestrate o).trace) := by
  constructor
  · intro c b
    cases c <;> cases b <;> simp [scrapeSessionEvents] <;> decide
  · intro o
    unfold orchestrate
    cases hco : o.createOk
    · simp only [Bool.not_false, if_true]
      decide
    · simp only [Bool.not_true, Bool.false_eq_true, if_false]
      cases hg : o.gotoOk
      · simp only [Bool.not_false, if_true]
        apply balanced_finalize
        exact ⟨rfl, by decide, by decide⟩
      · simp only [Bool.not_true, Bool.false_eq_true, if_false]
        apply balanced_finalize
        apply orchLoop_nav
        exact ⟨rfl, by decide, by decide⟩

theorem sessions_balanced_witness :
    balancedTrace (scrapeSessionEvents true true).1
  ∧ balancedTrace (orchestrate oracleEx).trace :=
  ⟨sessions_balanced.1 true true, sessions_balanced.2 oracleEx⟩

/-! ## C5: discovery dedup -/

theorem takeWhile_all_eq {p : Char → Bool} :
    ∀ l : List Char, (∀ c ∈ l, p c = true) → l.takeWhile p = l := by
  intro l h
  induction l with
  | nil => rfl
  | cons c rest ih =>
    have h1 := h c (List.mem_cons_self c rest)
    have h2 := ih (fun c hc => h c (List.mem_cons_of_mem _ hc))
    simp [List.takeWhile_cons, h1, h2]

theorem stripQuery_eq_self (u : String) (h : '?' ∉ u.data) : stripQuery u = u := by
  unfold stripQuery
  rw [takeWhile_all_eq u.data (fun c hc => by
    simp only [decide_eq_true_eq]
    intro hq
    exact h (hq ▸ hc))]

theorem greedyK_all (excl : Char → Bool) (l : List Char) (k : Nat)
    (h : greedyK excl l = some k) : (l.take k).all (fun c => !excl c) = true := by
  have := List.find?_some h
  simp only [Bool.and_eq_true] at this
  exact this.1.2

theorem matchHd_no_excl (excl : Char → Bool) (hq : excl '?' = true) :
    ∀ (fuel : Nat) (l m : List Char), m ∈ matchHd excl fuel l → '?' ∉ m := by
  intro fuel
  induction fuel with
  | zero => intro l m h; simp [matchHd] at h
  | succ n ih =>
    intro l m h
    cases l with
    | nil => simp [matchHd] at h
    | cons c rest =>
      unfold matchHd at h
      by_cases hp : hdLit.isPrefixOf (c :: rest) = true
      · simp only [hp, if_true] at h
        cases hg : greedyK excl ((c :: rest).drop hdLit.length) with
        | some k =>
          rw [hg] at h
          rcases List.mem_cons.mp h with rfl | h'
          · intro hin
            rcases List.mem_append.mp hin with hin | hin
            · rcases List.mem_append.mp hin with hin | hin
              · simp [hdLit] at hin
              · have hall := greedyK_all excl _ k hg
                rw [List.all_eq_true] at hall
                have := hall '?' hin
                rw [hq] at this
                exact absurd this (by decide)
            · simp [zpidSlashLit] at hin
          · exact ih _ _ h'
        | none =>
          rw [hg] at h
          exact ih _ _ h
      · simp only [hp, Bool.false_eq_true, if_false] at h
        exact ih _ _ h

theorem prefixed_match_noQ (m : List Char)
    (hm : '?' ∉ m) : '?' ∉ ("https://www.zillow.com" ++ String.mk m).data := by
  intro hin
  rw [String.data_append] at hin
  rcases List.mem_append.mp hin with hin | hin
  · simp [String.data] at hin
  · exact hm hin

theorem pushMatch_fold_noQ (ms : List String) :
    ∀ st : List String × List String,
      (∀ u ∈ st.2, '?' ∉ u.data) →
      (∀ m ∈ ms, '?' ∉ ("https://www.zillow.com" ++ m).data) →
      ∀ u ∈ (ms.foldl pushMatch st).2, '?' ∉ u.data := by
  induction ms with
  | nil => intro st h _ u hu; exact h u hu
  | cons m rest ih =>
    intro st h hm u hu
    simp only [List.foldl_cons] at hu
    refine ih (pushMatch st m) ?_ (fun m' hm' => hm m' (List.mem_cons_of_mem _ hm')) u hu
    intro v hv
    unfold pushMatch at hv
    cases hz : zpidOf m with
    | none => rw [hz] at hv; exact h v hv
    | some z =>
      rw [hz] at hv
      by_cases hmem : z ∈ st.1
      · simp only [hmem, if_true] at hv
        exact h v hv
      · simp only [hmem, if_false] at hv
        rcases List.mem_append.mp hv with hv | hv
        · exact h v hv
        · have : v = "https://www.zillow.com" ++ m := by simpa using hv
          subst this
          have : (String.mk m.data) = m := rfl
          have hq := hm m (List.mem_cons_self m rest)
          exact hq

theorem matchString_noQ (excl : Char → Bool) (hq : excl '?' = true) (text : String) :
    ∀ m ∈ hdMatches excl text, '?' ∉ ("https://www.zillow.com" ++ m).data := by
  intro m hm
  unfold hdMatches at hm
  rcases List.mem_map.mp hm with ⟨mc, hmc, rfl⟩
  exact prefixed_match_noQ mc (matchHd_no_excl excl hq _ _ mc hmc)

theorem scripts_fold_noQ (texts : List String) :
    ∀ st : List String × List String, (∀ u ∈ st.2, '?' ∉ u.data) →
      ∀ u ∈ (texts.foldl scriptStep st).2, '?' ∉ u.data := by
  induction texts with
  | nil => intro st h u hu; exact h u hu
  | cons text rest ih =>
    intro st h u hu
    simp only [List.foldl_cons] at hu
    refine ih (scriptStep st text) ?_ u hu
    unfold scriptStep
    split
    · exact pushMatch_fold_noQ (hdMatches excl2 text) st h
        (matchString_noQ excl2 (by decide) text)
    · exact h

theorem extractUrls_noQ (snap : SearchSnapshot) :
    ∀ u ∈ extractUrlsFromPageData snap, stripQuery u = u := by
  intro u hu
  apply stripQuery_eq_self
  revert hu
  unfold extractUrlsFromPageData
  cases hj : snap.nextDataJson with
  | none =>
    simp only
    intro hu
    split at hu
    · exact scripts_fold_noQ snap.scriptTexts ([], []) (by simp) u hu
    · simp at hu
  | some json =>
    simp only
    intro hu
    have hbase : ∀ v ∈ ((hdMatches excl1 json).foldl pushMatch ([], [])).2, '?' ∉ v.data :=
      pushMatch_fold_noQ (hdMatches excl1 json) ([], []) (by simp)
        (matchString_noQ excl1 (by decide) json)
    split at hu
    · exact scripts_fold_noQ snap.scriptTexts _ hbase u hu
    · exact hbase u hu

theorem foldl_addUrl (l : List String) :
    ∀ (seen out : List String),
      (l.foldl addUrl (seen, out)).2 = out ++ (dedupByKeyAux seen l).map stripQuery := by
  induction l with
  | nil => intro seen out; simp [dedupByKeyAux]
  | cons u rest ih =>
    intro seen out
    simp only [List.foldl_cons]
    unfold dedupByKeyAux
    by_cases hk : dedupKey u ∈ seen
    · have ha : addUrl (seen, out) u = (seen, out) := by
        unfold addUrl; simp [hk]
      rw [ha]
      simp only [hk, if_true]
      exact ih seen out
    · have ha : addUrl (seen, out) u = (dedupKey u :: seen, out ++ [stripQuery u]) := by
        unfold addUrl; simp [hk]
      rw [ha]
      simp only [hk, if_false]
      rw [ih (dedupKey u :: seen) (out ++ [stripQuery u])]
      simp [List.append_assoc]

theorem dedupAux_keys (l : List String) :
    ∀ seen : List String,
      ((dedupByKeyAux seen l).map dedupKey).Nodup
      ∧ ∀ k ∈ (dedupByKeyAux seen l).map dedupKey, k ∉ seen := by
  induction l with
  | nil => intro seen; exact ⟨List.nodup_nil, by simp [dedupByKeyAux]⟩
  | cons u rest ih =>
    intro seen
    unfold dedupByKeyAux
    by_cases hk : dedupKey u ∈ seen
    · simp only [hk, if_true]
      exact ih seen
    · simp only [hk, if_false]
      obtain ⟨hnd, hnin⟩ := ih (dedupKey u :: seen)
      refine ⟨?_, ?_⟩
      · simp only [List.map_cons]
        exact List.nodup_cons.mpr
          ⟨fun hmem => (hnin _ hmem) (List.mem_cons_self _ _), hnd⟩
      · intro k hkmem
        simp only [List.map_cons, List.mem_cons] at hkmem
        rcases hkmem with rfl | hkmem
        · exact hk
        · exact fun hs => (hnin k hkmem) (List.mem_cons_of_mem _ hs)

theorem dedupAux_sublist (l : List String) :
    ∀ seen, (dedupByKeyAux seen l).Sublist l := by
  induction l with
  | nil => intro _; simp [dedupByKeyAux]
  | cons u rest ih =>
    intro seen
    unfold dedupByKeyAux
    by_cases hk : dedupKey u ∈ seen
    · simp only [hk, if_true]
      exact List.Sublist.cons u (ih seen)
    · simp only [hk, if_false]
      exact List.Sublist.cons₂ u (ih _)

/-- C5 (amended): for every snapshot in which no DOM anchor carries a query string,
`extractListingUrls` is exactly first-seen-wins dedup by the zpid-or-URL key over the
embedded-JSON references followed by the DOM references: output keys are pairwise
distinct, order of first discovery is preserved (a sublist of the candidates, JSON
matches before DOM matches).  (Without the query-string restriction, entries are
query-stripped *after* key computation, which is the counterexample.) -/
theorem discovery_dedup : ∀ snap : SearchSnapshot,
    (∀ u ∈ snap.anchorHrefs, stripQuery u = u) →
    extractListingUrls snap =
      dedupByKeyFirst (extractUrlsFromPageData snap ++ domAnchorUrls snap)
    ∧ ((extractListingUrls snap).map dedupKey).Nodup
    ∧ (extractListingUrls snap).Sublist
        (extractUrlsFromPageData snap ++ domAnchorUrls snap) := by
  intro snap hq
  have hmain : extractListingUrls snap =
      dedupByKeyFirst (extractUrlsFromPageData snap ++ domAnchorUrls snap) := by
    show ((domAnchorUrls snap).foldl addUrl
      ((extractUrlsFromPageData snap).foldl addUrl ([], []))).2 = _
    rw [← List.foldl_append]
    rw [foldl_addUrl]
    rw [List.nil_append]
    unfold dedupByKeyFirst
    have hsub := dedupAux_sublist (extractUrlsFromPageData snap ++ domAnchorUrls snap) []
    rw [List.map_congr_left, List.map_id]
    intro u hu
    have hu' := hsub.mem hu
    rcases List.mem_append.mp hu' with hu' | hu'
    · exact extractUrls_noQ snap u hu'
    · exact hq u (List.mem_of_mem_filter hu')
  refine ⟨hmain, ?_, ?_⟩
  · rw [hmain]
    exact (dedupAux_keys _ []).1
  · rw [hmain]
    exact dedupAux_sublist _ []

theorem discovery_dedup_witness :
    (∀ u ∈ snapC5ok.anchorHrefs, stripQuery u = u)
  ∧ (extractListingUrls snapC5ok =
      dedupByKeyFirst (extractUrlsFromPageData snapC5ok ++ domAnchorUrls snapC5ok)
    ∧ ((extractListingUrls snapC5ok).map dedupKey).Nodup
    ∧ (extractListingUrls snapC5ok).Sublist
        (extractUrlsFromPageData snapC5ok ++ domAnchorUrls snapC5ok)) :=
  ⟨by decide, discovery_dedup snapC5ok (by decide)⟩

/-- C5 (counterexample): two DOM anchors that differ only in their query string have
distinct dedup keys (no zpid, key = the full URL), so both are accepted — but the
output stores *query-stripped* URLs, so the returned list contains two identical
entries, refuting "no two entries share a dedup key". -/
theorem discovery_dup_counterexample :
    extractListingUrls snapC5 = ["https://z/homedetails/x", "https://z/homedetails/x"]
  ∧ ¬ ((extractListingUrls snapC5).map dedupKey).Nodup :=
  ⟨by decide, by decide⟩

/-- C2 (counterexample): a Tier-2 (DOM-fallback) pass that completes without exception
but finds no address element still returns a record — with `address = null` and
`success` semantics — rather than failing. -/
theorem tier2NullAddress_counterexample :
    (scrapeListingPage "https://w/homedetails/1_zpid/" snapNoAddr).toOption.map
        (fun r => (r.get "address", r.get "link")) =
      some (JsVal.null, JsVal.str "https://w/homedetails/1_zpid/") :=
  rfl

/-! ## C2: link and address of returned records -/

theorem scrapeTier2_link (url : String) (s : ListingSnapshot) (r : JRec)
    (h : scrapeTier2 url s = .ok r) : r.get "link" = .str url := by
  unfold scrapeTier2 at h
  split at h
  · simp at h
  · split at h
    · simp at h
    · injection h with h
      rw [← h]
      exact get_set_self _ _ _ _

/-- C2 (amended): every record `scrapeListingPage` returns carries a `link` field equal
to the source URL, and on the Tier-1 (`__NEXT_DATA__`) path the returned record has a
truthy — hence non-null — address (a Tier-1 result with no address falls through to the
DOM fallback instead of being returned).  The Tier-2 DOM path, however, returns its
record unconditionally, so a null address is only ever reported via Tier 2
(see the counterexample). -/
theorem scrapeListingPage_link_address :
    ∀ (url : String) (s : ListingSnapshot) (r : JRec),
      scrapeListingPage url s = .ok r →
      r.get "link" = .str url
      ∧ (∀ ex, s.nextDataTruthy = true →
          extractFromNextData s.propertyLookup = some ex →
          jsTruthy (ex.get "address") = true →
          jsTruthy (r.get "address") = true) := by
  intro url s r h
  unfold scrapeListingPage at h
  by_cases h1 : (!s.createOk) = true
  · rw [if_pos h1] at h; simp at h
  · rw [if_neg h1] at h
    by_cases h2 : (!s.gotoOk) = true
    · rw [if_pos h2] at h; simp at h
    · rw [if_neg h2] at h
      by_cases h3 : (!s.nextEvalOk) = true
      · rw [if_pos h3] at h; simp at h
      · rw [if_neg h3] at h
        by_cases hnd : s.nextDataTruthy = true
        · rw [if_pos hnd] at h
          cases hex : extractFromNextData s.propertyLookup with
          | some extracted =>
            rw [hex] at h
            have h' : (if jsTruthy (extracted.get "address") = true
                then Except.ok (extracted.set Pass.other "link" (JsVal.str url))
                else scrapeTier2 url s) = Except.ok r := h
            by_cases haddr : jsTruthy (extracted.get "address") = true
            · rw [if_pos haddr] at h'
              injection h' with h'
              constructor
              · rw [← h']
                exact get_set_self _ _ _ _
              · intro ex _ hex' _
                injection hex' with hex'
                rw [← h', get_set_ne _ _ "address" "link" _ (by decide)]
                exact haddr
            · rw [if_neg haddr] at h'
              refine ⟨scrapeTier2_link url s r h', ?_⟩
              intro ex _ hex' htr
              injection hex' with hex'
              rw [← hex'] at htr
              exact absurd htr haddr
          | none =>
            rw [hex] at h
            have h' : scrapeTier2 url s = Except.ok r := h
            refine ⟨scrapeTier2_link url s r h', ?_⟩
            intro ex _ hex' _
            simp at hex'
        · rw [if_neg hnd] at h
          refine ⟨scrapeTier2_link url s r h, ?_⟩
          intro ex hnd' _ _
          exact absurd hnd' hnd

theorem scrapeListingPage_link_address_witness :
    scrapeListingPage "u" snapT1 = .ok recT1
  ∧ recT1.get "link" = .str "u"
  ∧ jsTruthy (recT1.get "address") = true := by
  have happ := scrapeListingPage_link_address "u" snapT1 recT1 rfl
  exact ⟨rfl, happ.1, happ.2 exT1 rfl rfl rfl⟩

/-! ## Key-preservation through the extraction pipeline -/

theorem ne_fact_head (k : String) (hc : k.data.head? ≠ some 'f') :
    ∀ t : String, k ≠ "fact_" ++ t := by
  intro t he
  apply hc
  rw [he, String.data_append]
  rfl

theorem get_condSet {b : Prop} [Decidable b] (r : JRec) (pp : Pass) (k k' : String)
    (v : JsVal) (h : k ≠ k') :
    (if b then r.set pp k' v else r).get k = r.get k := by
  split
  · exact get_set_ne r pp k k' v h
  · rfl

theorem basicFactsPass_get_ne (k : String) (hk : ∀ t, k ≠ "fact_" ++ t)
    (p : JsVal) (r : JRec) : (basicFactsPass p r).get k = r.get k := by
  have h01 : k ≠ "fact_bedrooms" := fun he => hk "bedrooms" (he.trans (by decide))
  have h02 : k ≠ "fact_bathrooms" := fun he => hk "bathrooms" (he.trans (by decide))
  have h03 : k ≠ "fact_living_area" := fun he => hk "living_area" (he.trans (by decide))
  have h04 : k ≠ "fact_lot_size" := fun he => hk "lot_size" (he.trans (by decide))
  have h05 : k ≠ "fact_year_built" := fun he => hk "year_built" (he.trans (by decide))
  have h06 : k ≠ "fact_type" := fun he => hk "type" (he.trans (by decide))
  have h07 : k ≠ "fact_status" := fun he => hk "status" (he.trans (by decide))
  have h08 : k ≠ "fact_parking" := fun he => hk "parking" (he.trans (by decide))
  have h09 : k ≠ "fact_heating" := fun he => hk "heating" (he.trans (by decide))
  have h10 : k ≠ "fact_cooling" := fun he => hk "cooling" (he.trans (by decide))
  simp only [basicFactsPass]
  rw [get_condSet _ _ _ _ _ h10, get_condSet _ _ _ _ _ h09, get_condSet _ _ _ _ _ h08,
    get_condSet _ _ _ _ _ h07, get_condSet _ _ _ _ _ h06, get_condSet _ _ _ _ _ h05,
    get_condSet _ _ _ _ _ h04, get_condSet _ _ _ _ _ h04, get_condSet _ _ _ _ _ h03,
    get_condSet _ _ _ _ _ h02, get_condSet _ _ _ _ _ h01]

theorem dictAssign_get_ne (k : String) (hk : ∀ t, k ≠ "fact_" ++ t)
    (reso : JsVal) (r : JRec) (m : String × String) :
    (dictAssign reso r m).get k = r.get k := by
  simp only [dictAssign]
  split
  · rfl
  · split
    · exact get_setIfUnset_ne _ _ _ _ _ (hk m.2)
    · rfl

theorem dictFold_get_ne (k : String) (hk : ∀ t, k ≠ "fact_" ++ t) (reso : JsVal) :
    ∀ (ms : List (String × String)) (r : JRec),
      (ms.foldl (dictAssign reso) r).get k = r.get k := by
  intro ms
  induction ms with
  | nil => intro r; rfl
  | cons m rest ih =>
    intro r
    simp only [List.foldl_cons]
    rw [ih (dictAssign reso r m), dictAssign_get_ne k hk reso r m]

theorem glanceStep_get_ne (k : String) (hk : ∀ t, k ≠ "fact_" ++ t)
    (r : JRec) (f : JsVal) (r' : JRec) (h : glanceStep r f = .ok r') :
    r'.get k = r.get k := by
  unfold glanceStep at h
  cases hl : jsGetF f "factLabel" with
  | error e => rw [hl] at h; simp [Bind.bind, Except.bind] at h
  | ok label =>
    rw [hl] at h
    simp only [Bind.bind, Except.bind] at h
    by_cases htl : jsTruthy label = true
    · rw [if_pos htl] at h
      cases hv : jsGetF f "factValue" with
      | error e => rw [hv] at h; simp [Except.bind] at h
      | ok value =>
        rw [hv] at h
        simp only [Except.bind] at h
        by_cases hvc : (jsTruthy value && !(value == JsVal.str "No Data")) = true
        · rw [if_pos hvc] at h
          rcases label with _ | _ | b | q | s | xs | fs
          · simp at h
          · simp at h
          · simp at h
          · simp at h
          · simp only [pure, Except.pure] at h
            injection h with h
            rw [← h]
            exact get_setIfUnset_ne _ _ _ _ _ (hk (slug s))
          · simp at h
          · simp at h
        · rw [if_neg hvc] at h
          simp only [pure, Except.pure] at h
          injection h with h
          rw [h]
    · rw [if_neg htl] at h
      simp only [pure, Except.pure] at h
      injection h with h
      rw [h]

theorem glanceFold_get_ne (k : String) (hk : ∀ t, k ≠ "fact_" ++ t) :
    ∀ (xs : List JsVal) (r r' : JRec), glanceFold xs r = .ok r' → r'.get k = r.get k := by
  intro xs
  induction xs with
  | nil =>
    intro r r' h
    injection h with h
    rw [h]
  | cons f rest ih =>
    intro r r' h
    unfold glanceFold at h
    cases hs : glanceStep r f with
    | error e => rw [hs] at h; simp [Bind.bind, Except.bind] at h
    | ok r1 =>
      rw [hs] at h
      simp only [Bind.bind, Except.bind] at h
      rw [ih r1 r' h]
      exact glanceStep_get_ne k hk r f r1 hs

theorem resoPass_get_ne (k : String) (hk : ∀ t, k ≠ "fact_" ++ t)
    (p : JsVal) (r r' : JRec) (h : resoPass p r = .ok r') : r'.get k = r.get k := by
  simp only [resoPass] at h
  split at h
  · unfold glancePass at h
    split at h
    · rw [glanceFold_get_ne k hk _ _ _ h]
      exact dictFold_get_ne k hk _ factMappings r
    · injection h with h
      rw [← h]
      exact dictFold_get_ne k hk _ factMappings r
  · injection h with h
    rw [← h]

theorem priceHistoryPass_get_ne (k : String) (hk : k ≠ "price_history")
    (p : JsVal) (r r' : JRec) (h : priceHistoryPass p r = .ok r') :
    r'.get k = r.get k := by
  unfold priceHistoryPass at h
  split at h
  · split at h
    · cases he : exceptMap phEntry _ with
      | error e => rw [he] at h; simp [Bind.bind, Except.bind] at h
      | ok rows =>
        rw [he] at h
        simp only [Bind.bind, Except.bind, pure, Except.pure] at h
        injection h with h
        rw [← h]
        exact get_set_ne _ _ _ _ _ hk
    · injection h with h
      rw [← h]
      exact get_set_ne _ _ _ _ _ hk
  · injection h with h
    rw [← h]
    exact get_set_ne _ _ _ _ _ hk

theorem taxHistoryPass_get_ne (k : String) (hk : k ≠ "public_tax_history")
    (p : JsVal) (r r' : JRec) (h : taxHistoryPass p r = .ok r') :
    r'.get k = r.get k := by
  unfold taxHistoryPass at h
  split at h
  · split at h
    · cases he : exceptMap thEntry _ with
      | error e => rw [he] at h; simp [Bind.bind, Except.bind] at h
      | ok rows =>
        rw [he] at h
        simp only [Bind.bind, Except.bind, pure, Except.pure] at h
        injection h with h
        rw [← h]
        exact get_set_ne _ _ _ _ _ hk
    · injection h with h
      rw [← h]
      exact get_set_ne _ _ _ _ _ hk
  · injection h with h
    rw [← h]
    exact get_set_ne _ _ _ _ _ hk

theorem extractFromNextData_some (p : JsVal) (r : JRec)
    (h : extractFromNextData (some p) = some r) :
    buildRecord p = .ok r ∧ jsTruthy p = true := by
  have h' : (if jsTruthy p = true then
      (match buildRecord p with
        | Except.ok r0 => some r0
        | Except.error _ => none)
      else none) = some r := h
  by_cases ht : jsTruthy p = true
  · rw [if_pos ht] at h'
    cases hb : buildRecord p with
    | error e => rw [hb] at h'; simp at h'
    | ok r0 =>
      rw [hb] at h'
      have h'' : some r0 = some r := h'
      injection h'' with h''
      refine ⟨?_, ht⟩
      rw [← h'']
  · rw [if_neg ht] at h'
    simp at h'

theorem extract_get (p : JsVal) (r : JRec) (h : extractFromNextData (some p) = some r)
    (k : String) (hk : ∀ t, k ≠ "fact_" ++ t)
    (h1 : k ≠ "price_history") (h2 : k ≠ "public_tax_history") :
    r.get k = (rangePass p (moneyPass p (addressPass p emptyRec))).get k := by
  obtain ⟨hb, _⟩ := extractFromNextData_some p r h
  simp only [buildRecord] at hb
  cases hr : resoPass p (basicFactsPass p (rangePass p (moneyPass p (addressPass p emptyRec)))) with
  | error e => rw [hr] at hb; simp [Bind.bind, Except.bind] at hb
  | ok r5 =>
    rw [hr] at hb
    simp only [Bind.bind, Except.bind] at hb
    cases hph : priceHistoryPass p r5 with
    | error e => rw [hph] at hb; simp [Except.bind] at hb
    | ok r6 =>
      rw [hph] at hb
      simp only [Except.bind] at hb
      calc r.get k = r6.get k := taxHistoryPass_get_ne k h2 p r6 r hb
        _ = r5.get k := priceHistoryPass_get_ne k h1 p r5 r6 hph
        _ = (basicFactsPass p (rangePass p (moneyPass p (addressPass p emptyRec)))).get k :=
          resoPass_get_ne k hk p _ r5 hr
        _ = (rangePass p (moneyPass p (addressPass p emptyRec))).get k :=
          basicFactsPass_get_ne k hk p _

/-! ## C6: the estimated sales range -/

theorem rangePass_null_iff (p : JsVal) (r : JRec) :
    ((rangePass p r).get "estimated_sales_range" = JsVal.null) ↔
      (jsTruthy (jsGetD p "zestimate") && jsNeNull (jsGetD p "zestimateLowPercent")
        && jsNeNull (jsGetD p "zestimateHighPercent")) = false := by
  simp only [rangePass]
  by_cases hc : (jsTruthy (jsGetD p "zestimate") && jsNeNull (jsGetD p "zestimateLowPercent")
      && jsNeNull (jsGetD p "zestimateHighPercent")) = true
  · rw [if_pos hc, get_set_self]
    simp [hc]
  · rw [if_neg hc, get_set_self]
    simp [Bool.eq_false_iff.mpr hc]

theorem rangePass_value (p : JsVal) (r : JRec) (c l hpc : Int)
    (hz : jsGetD p "zestimate" = .num (jnInt c)) (hc : c ≠ 0)
    (hl : jsGetD p "zestimateLowPercent" = .num (jnInt l))
    (hh : jsGetD p "zestimateHighPercent" = .num (jnInt hpc)) :
    (rangePass p r).get "estimated_sales_range" =
      .str ("$" ++ groupInt (Int.fdiv (2 * (c * (100 - l)) + 100) 200)
        ++ " - $" ++ groupInt (Int.fdiv (2 * (c * (100 + hpc)) + 100) 200)) := by
  simp only [rangePass]
  rw [hz, hl, hh]
  have hcond : (jsTruthy (JsVal.num (jnInt c)) && jsNeNull (JsVal.num (jnInt l))
      && jsNeNull (JsVal.num (jnInt hpc))) = true := by
    simp [jsTruthy, jsNeNull, jnInt, hc]
  rw [if_pos hcond, get_set_self]
  simp only [jsToNum, jnInt, jnOne, jnDiv100, jnSub, jnAdd, jnMul, jnRound, intLocale]
  norm_num

/-- C6 (amended): the estimated sales range is computed exactly when the center
zestimate is *truthy* (present and nonzero — a center of 0 yields `null`, the
counterexample) and both percent offsets are non-null; when computed with integer
inputs it equals `"$low - $high"` with `low = round(center·(100−lowPct)/100)` and
`high = round(center·(100+highPct)/100)` (round = floor(x+1/2), `en-US`-grouped);
in particular 500000/5/3 renders `"$475,000 - $515,000"`. -/
theorem estimatedRange_spec :
    (extractFromNextData (some p500k)).map (fun r => r.get "estimated_sales_range") =
      some (JsVal.str "$475,000 - $515,000")
  ∧ (∀ (p : JsVal) (r : JRec), extractFromNextData (some p) = some r →
      (r.get "estimated_sales_range" = JsVal.null ↔
        (jsTruthy (jsGetD p "zestimate") && jsNeNull (jsGetD p "zestimateLowPercent")
          && jsNeNull (jsGetD p "zestimateHighPercent")) = false))
  ∧ (∀ (p : JsVal) (r : JRec) (c l hpc : Int), extractFromNextData (some p) = some r →
      jsGetD p "zestimate" = .num (jnInt c) → c ≠ 0 →
      jsGetD p "zestimateLowPercent" = .num (jnInt l) →
      jsGetD p "zestimateHighPercent" = .num (jnInt hpc) →
      r.get "estimated_sales_range" =
        .str ("$" ++ groupInt (Int.fdiv (2 * (c * (100 - l)) + 100) 200)
          ++ " - $" ++ groupInt (Int.fdiv (2 * (c * (100 + hpc)) + 100) 200))) := by
  refine ⟨rfl, ?_, ?_⟩
  · intro p r h
    rw [extract_get p r h _ (ne_fact_head _ (by decide)) (by decide) (by decide)]
    exact rangePass_null_iff p _
  · intro p r c l hpc h hz hc hl hh
    rw [extract_get p r h _ (ne_fact_head _ (by decide)) (by decide) (by decide)]
    exact rangePass_value p _ c l hpc hz hc hl hh

theorem estimatedRange_spec_witness :
    rec500k.get "estimated_sales_range" =
      .str ("$" ++ groupInt (Int.fdiv (2 * (500000 * (100 - 5)) + 100) 200)
        ++ " - $" ++ groupInt (Int.fdiv (2 * (500000 * (100 + 3)) + 100) 200)) :=
  estimatedRange_spec.2.2 p500k rec500k 500000 5 3 rfl rfl (by decide) rfl rfl

/-! ## C8: fact namespacing, sentinel skipping, first-writer-wins -/

theorem goodWrites_empty : goodWrites emptyRec := by
  intro e he
  simp [emptyRec] at he

theorem goodWrites_set (r : JRec) (pp : Pass) (k : String) (v : JsVal)
    (h : goodWrites r)
    (h1 : factPass pp = true → ∃ t, k = "fact_" ++ t)
    (h2 : laterPass pp = true → jsTruthy (r.get k) = false) :
    goodWrites (r.set pp k v) := by
  intro e he
  simp only [JRec.set] at he
  rcases List.mem_append.mp he with he | he
  · exact h e he
  · have he' : e = { pass := pp, key := k, old := r.get k, new := v } := by
      simpa using he
    subst he'
    exact ⟨h1, h2⟩

theorem goodWrites_set_other (r : JRec) (k : String) (v : JsVal) (h : goodWrites r) :
    goodWrites (r.set .other k v) :=
  goodWrites_set r .other k v h
    (fun hf => absurd hf (by decide)) (fun hf => absurd hf (by decide))

theorem goodWrites_condSet_other (r : JRec) (b : Prop) [Decidable b] (k : String)
    (v : JsVal) (h : goodWrites r) :
    goodWrites (if b then r.set .other k v else r) := by
  split
  · exact goodWrites_set_other r k v h
  · exact h

theorem goodWrites_condSet_basic (r : JRec) (b : Prop) [Decidable b]
    (t lit : String) (hlit : lit = "fact_" ++ t) (v : JsVal) (h : goodWrites r) :
    goodWrites (if b then r.set .basicFacts lit v else r) := by
  split
  · exact goodWrites_set r .basicFacts lit v h (fun _ => ⟨t, hlit⟩)
      (fun hf => absurd hf (by decide))
  · exact h

theorem goodWrites_setIfUnset (r : JRec) (pp : Pass) (t : String) (v : JsVal)
    (h : goodWrites r) :
    goodWrites (r.setIfUnset pp ("fact_" ++ t) v) := by
  unfold JRec.setIfUnset
  split
  · exact h
  · rename_i hcond
    exact goodWrites_set r pp _ v h (fun _ => ⟨t, rfl⟩)
      (fun _ => Bool.eq_false_iff.mpr hcond)

theorem goodWrites_addressPass (p : JsVal) (r : JRec) (h : goodWrites r) :
    goodWrites (addressPass p r) := by
  simp only [addressPass]
  split
  · exact goodWrites_set_other _ _ _ h
  · exact goodWrites_set_other _ _ _ h

theorem goodWrites_moneyPass (p : JsVal) (r : JRec) (h : goodWrites r) :
    goodWrites (moneyPass p r) :=
  goodWrites_set_other _ _ _ (goodWrites_set_other _ _ _ (goodWrites_set_other _ _ _ h))

theorem goodWrites_rangePass (p : JsVal) (r : JRec) (h : goodWrites r) :
    goodWrites (rangePass p r) := by
  simp only [rangePass]
  split
  · exact goodWrites_set_other _ _ _ h
  · exact goodWrites_set_other _ _ _ h

theorem goodWrites_basicFactsPass (p : JsVal) (r : JRec) (h : goodWrites r) :
    goodWrites (basicFactsPass p r) := by
  simp only [basicFactsPass]
  refine goodWrites_condSet_basic _ _ "cooling" _ (by decide) _ ?_
  refine goodWrites_condSet_basic _ _ "heating" _ (by decide) _ ?_
  refine goodWrites_condSet_basic _ _ "parking" _ (by decide) _ ?_
  refine goodWrites_condSet_basic _ _ "status" _ (by decide) _ ?_
  refine goodWrites_condSet_basic _ _ "type" _ (by decide) _ ?_
  refine goodWrites_condSet_basic _ _ "year_built" _ (by decide) _ ?_
  refine goodWrites_condSet_basic _ _ "lot_size" _ (by decide) _ ?_
  refine goodWrites_condSet_basic _ _ "lot_size" _ (by decide) _ ?_
  refine goodWrites_condSet_basic _ _ "living_area" _ (by decide) _ ?_
  refine goodWrites_condSet_basic _ _ "bathrooms" _ (by decide) _ ?_
  exact goodWrites_condSet_basic _ _ "bedrooms" _ (by decide) _ h

theorem goodWrites_dictAssign (reso : JsVal) (r : JRec) (m : String × String)
    (h : goodWrites r) : goodWrites (dictAssign reso r m) := by
  simp only [dictAssign]
  split
  · exact h
  · split
    · exact goodWrites_setIfUnset r .dictFacts m.2 _ h
    · exact h

theorem goodWrites_dictFold (reso : JsVal) :
    ∀ (ms : List (String × String)) (r : JRec), goodWrites r →
      goodWrites (ms.foldl (dictAssign reso) r) := by
  intro ms
  induction ms with
  | nil => intro r h; exact h
  | cons m rest ih =>
    intro r h
    simp only [List.foldl_cons]
    exact ih _ (goodWrites_dictAssign reso r m h)

theorem goodWrites_glanceStep (r : JRec) (f : JsVal) (r' : JRec)
    (hs : glanceStep r f = .ok r') (h : goodWrites r) : goodWrites r' := by
  unfold glanceStep at hs
  cases hl : jsGetF f "factLabel" with
  | error e => rw [hl] at hs; simp [Bind.bind, Except.bind] at hs
  | ok label =>
    rw [hl] at hs
    simp only [Bind.bind, Except.bind] at hs
    by_cases htl : jsTruthy label = true
    · rw [if_pos htl] at hs
      cases hv : jsGetF f "factValue" with
      | error e => rw [hv] at hs; simp [Except.bind] at hs
      | ok value =>
        rw [hv] at hs
        simp only [Except.bind] at hs
        by_cases hvc : (jsTruthy value && !(value == JsVal.str "No Data")) = true
        · rw [if_pos hvc] at hs
          rcases label with _ | _ | b | q | s | xs | fs
          · simp at hs
          · simp at hs
          · simp at hs
          · simp at hs
          · simp only [pure, Except.pure] at hs
            injection hs with hs
            rw [← hs]
            exact goodWrites_setIfUnset r .glanceFacts (slug s) value h
          · simp at hs
          · simp at hs
        · rw [if_neg hvc] at hs
          simp only [pure, Except.pure] at hs
          injection hs with hs
          rw [← hs]
          exact h
    · rw [if_neg htl] at hs
      simp only [pure, Except.pure] at hs
      injection hs with hs
      rw [← hs]
      exact h

theorem goodWrites_glanceFold :
    ∀ (xs : List JsVal) (r r' : JRec), glanceFold xs r = .ok r' →
      goodWrites r → goodWrites r' := by
  intro xs
  induction xs with
  | nil =>
    intro r r' hf h
    injection hf with hf
    rw [← hf]
    exact h
  | cons f rest ih =>
    intro r r' hf h
    unfold glanceFold at hf
    cases hs : glanceStep r f with
    | error e => rw [hs] at hf; simp [Bind.bind, Except.bind] at hf
    | ok r1 =>
      rw [hs] at hf
      simp only [Bind.bind, Except.bind] at hf
      exact ih r1 r' hf (goodWrites_glanceStep r f r1 hs h)

theorem goodWrites_resoPass (p : JsVal) (r r' : JRec)
    (hr : resoPass p r = .ok r') (h : goodWrites r) : goodWrites r' := by
  simp only [resoPass] at hr
  split at hr
  · unfold glancePass at hr
    have hd := goodWrites_dictFold (jsGetD p "resoFacts") factMappings r h
    split at hr
    · exact goodWrites_glanceFold _ _ r' hr hd
    · injection hr with hr
      rw [← hr]
      exact hd
  · injection hr with hr
    rw [← hr]
    exact h

theorem goodWrites_priceHistoryPass (p : JsVal) (r r' : JRec)
    (hr : priceHistoryPass p r = .ok r') (h : goodWrites r) : goodWrites r' := by
  unfold priceHistoryPass at hr
  split at hr
  · split at hr
    · cases he : exceptMap phEntry _ with
      | error e => rw [he] at hr; simp [Bind.bind, Except.bind] at hr
      | ok rows =>
        rw [he] at hr
        simp only [Bind.bind, Except.bind, pure, Except.pure] at hr
        injection hr with hr
        rw [← hr]
        exact goodWrites_set_other _ _ _ h
    · injection hr with hr
      rw [← hr]
      exact goodWrites_set_other _ _ _ h
  · injection hr with hr
    rw [← hr]
    exact goodWrites_set_other _ _ _ h

theorem goodWrites_taxHistoryPass (p : JsVal) (r r' : JRec)
    (hr : taxHistoryPass p r = .ok r') (h : goodWrites r) : goodWrites r' := by
  unfold taxHistoryPass at hr
  split at hr
  · split at hr
    · cases he : exceptMap thEntry _ with
      | error e => rw [he] at hr; simp [Bind.bind, Except.bind] at hr
      | ok rows =>
        rw [he] at hr
        simp only [Bind.bind, Except.bind, pure, Except.pure] at hr
        injection hr with hr
        rw [← hr]
        exact goodWrites_set_other _ _ _ h
    · injection hr with hr
      rw [← hr]
      exact goodWrites_set_other _ _ _ h
  · injection hr with hr
    rw [← hr]
    exact goodWrites_set_other _ _ _ h

/-- C8 (amended): (i) in the final record of every successful Tier-1 extraction,
every write performed by the basic-facts, dictionary, or at-a-glance pass targets a
`fact_`-namespaced key, and every write by the dictionary or at-a-glance pass lands on
a key whose current value is *falsy* — so a fact field already set to a non-empty
value is never overwritten (a field holding the empty string can be, which is the
counterexample); (ii) the dictionary pass skips source values that are `null`,
`undefined`, `""`, or the literal `"None"` (the at-a-glance pass has its own sentinel,
`"No Data"`). -/
theorem factWrites_spec :
    (∀ (pl : Option JsVal) (r : JRec), extractFromNextData pl = some r → goodWrites r)
  ∧ (∀ (reso : JsVal) (rr : JRec) (m : String × String),
      (jsGetD reso m.1 = .null ∨ jsGetD reso m.1 = .undefined ∨
       jsGetD reso m.1 = .str "" ∨ jsGetD reso m.1 = .str "None") →
      dictAssign reso rr m = rr) := by
  constructor
  · intro pl r h
    cases pl with
    | none => simp [extractFromNextData] at h
    | some p =>
      obtain ⟨hb, _⟩ := extractFromNextData_some p r h
      simp only [buildRecord] at hb
      have h4 : goodWrites (basicFactsPass p (rangePass p (moneyPass p (addressPass p emptyRec)))) :=
        goodWrites_basicFactsPass p _ (goodWrites_rangePass p _ (goodWrites_moneyPass p _
          (goodWrites_addressPass p _ goodWrites_empty)))
      cases hr : resoPass p (basicFactsPass p (rangePass p (moneyPass p (addressPass p emptyRec)))) with
      | error e => rw [hr] at hb; simp [Bind.bind, Except.bind] at hb
      | ok r5 =>
        rw [hr] at hb
        simp only [Bind.bind, Except.bind] at hb
        cases hph : priceHistoryPass p r5 with
        | error e => rw [hph] at hb; simp [Except.bind] at hb
        | ok r6 =>
          rw [hph] at hb
          simp only [Except.bind] at hb
          exact goodWrites_taxHistoryPass p r6 r hb
            (goodWrites_priceHistoryPass p r5 r6 hph
              (goodWrites_resoPass p _ r5 hr h4))
  · intro reso rr m hval
    simp only [dictAssign]
    by_cases hg : (m.1 == "atAGlanceFacts") = true
    · rw [if_pos hg]
    · rw [if_neg hg]
      have hcond : (jsNeNull (jsGetD reso m.1) && !(jsGetD reso m.1 == JsVal.str "")
          && !(jsGetD reso m.1 == JsVal.str "None")) = false := by
        rcases hval with hv | hv | hv | hv <;> rw [hv] <;> rfl
      rw [if_neg (by rw [hcond]; exact Bool.false_ne_true)]

/-- C8 (counterexample): on `pC8` the basic pass sets `fact_bedrooms` to `""` (two
recorded writes at that key: the basic write and the dictionary write over the
already-set empty value), the dictionary pass then overwrites it with `"3"`, and the
at-a-glance pass emits a fact whose value is the literal `"None"`. -/
theorem factOverwrite_counterexample :
    (recC8.writes.filter (fun e => e.key == "fact_bedrooms")).map
        (fun e => (e.pass, e.old, e.new)) =
      [(Pass.basicFacts, JsVal.undefined, JsVal.str ""),
       (Pass.dictFacts, JsVal.str "", JsVal.str "3")]
  ∧ recC8.get "fact_bedrooms" = JsVal.str "3"
  ∧ recC8.get "fact_heating" = JsVal.str "None" :=
  ⟨rfl, rfl, rfl⟩

theorem factWrites_spec_witness :
    goodWrites recC8
  ∧ dictAssign (JsVal.obj [("sewer", JsVal.str "None")]) emptyRec ("sewer", "sewer") =
      emptyRec :=
  ⟨factWrites_spec.1 (some pC8) recC8 rfl,
   factWrites_spec.2 (JsVal.obj [("sewer", JsVal.str "None")]) emptyRec ("sewer", "sewer")
     (Or.inr (Or.inr (Or.inr rfl)))⟩

end ZS
